import Mathlib

/-!
Verification development for the blog-generation pipeline of this repository
(`scripts/generate_daily_blogs.py` and `scripts/publish_yesterday_git_blog.py`).

The Python code is shallowly embedded: strings are `String`/`List Char`,
`json.loads` is modelled by an executable recursive-descent parser
(`jsonLoads`) over the JSON fragment the pipeline exchanges (objects, arrays,
strings with escape validation, integers, booleans, null); filesystem and
network effects are made explicit (file name lists, an oracle of per-attempt
HTTP results).  Each Python helper keeps its source name where Lean allows.
-/

/-- Python `str.strip()` whitespace test, restricted to the ASCII whitespace
characters (space, tab, newline, carriage return, vertical tab, form feed). -/
def isPyWs (c : Char) : Bool :=
  c = ' ' || c = '\t' || c = '\n' || c = '\r' || c = Char.ofNat 11 || c = Char.ofNat 12

/-- Python `str.strip()` on a character list: drop whitespace at both ends. -/
def pyStripL (cs : List Char) : List Char :=
  ((cs.dropWhile isPyWs).reverse.dropWhile isPyWs).reverse

/-- Python `str.strip()` on a `String`. -/
def pyStrip (s : String) : String :=
  String.mk (pyStripL s.toList)

/-- JSON whitespace accepted between tokens by `json.loads`. -/
def isJsonWs (c : Char) : Bool :=
  c = ' ' || c = '\t' || c = '\n' || c = '\r'

/-- Skip JSON inter-token whitespace. -/
def skipWs : List Char → List Char
  | [] => []
  | c :: cs => if isJsonWs c then skipWs cs else c :: cs

/-- The decoded structured record: the JSON fragment the generator replies
with (strings, integers, booleans, null, arrays, objects). -/
inductive Json where
  | str (s : String)
  | num (n : Int)
  | bool (b : Bool)
  | null
  | arr (elems : List Json)
  | obj (members : List (String × Json))
deriving Repr

/-- Value of a hexadecimal digit, for `\uXXXX` escapes. -/
def hexDigit? (c : Char) : Option Nat :=
  if '0' ≤ c ∧ c ≤ '9' then some (c.toNat - '0'.toNat)
  else if 'a' ≤ c ∧ c ≤ 'f' then some (c.toNat - 'a'.toNat + 10)
  else if 'A' ≤ c ∧ c ≤ 'F' then some (c.toNat - 'A'.toNat + 10)
  else none

/-- Decode the body of a JSON string literal (the opening quote already
consumed): strict escapes only, raw control characters refused, exactly as
`json.loads` (with `strict=True`, its default) behaves.  Returns the decoded
characters and the input after the closing quote. -/
def parseStrGo : Nat → List Char → Option (List Char × List Char)
  | 0, _ => none
  | _ + 1, [] => none
  | fuel + 1, c :: cs =>
    if c = '"' then some ([], cs)
    else if c = '\\' then
      match cs with
      | [] => none
      | e :: cs2 =>
        let dec : Option (Char × List Char) :=
          if e = '"' then some ('"', cs2)
          else if e = '\\' then some ('\\', cs2)
          else if e = '/' then some ('/', cs2)
          else if e = 'b' then some (Char.ofNat 8, cs2)
          else if e = 'f' then some (Char.ofNat 12, cs2)
          else if e = 'n' then some ('\n', cs2)
          else if e = 'r' then some ('\r', cs2)
          else if e = 't' then some ('\t', cs2)
          else if e = 'u' then
            match cs2 with
            | h1 :: h2 :: h3 :: h4 :: cs3 =>
              match hexDigit? h1, hexDigit? h2, hexDigit? h3, hexDigit? h4 with
              | some a, some b, some c2, some d =>
                some (Char.ofNat (((a * 16 + b) * 16 + c2) * 16 + d), cs3)
              | _, _, _, _ => none
            | _ => none
          else none
        match dec with
        | some (ch, rest) =>
          match parseStrGo fuel rest with
          | some (out, r) => some (ch :: out, r)
          | none => none
        | none => none
    else if c.toNat < 32 then none
    else
      match parseStrGo fuel cs with
      | some (out, r) => some (c :: out, r)
      | none => none

/-- Digits to a natural number. -/
def digitsToNat (ds : List Char) : Nat :=
  ds.foldl (fun acc c => acc * 10 + (c.toNat - '0'.toNat)) 0

/-- Parse a JSON integer literal (optional minus, no leading zeros).  The
fractional/exponent forms of JSON numbers are outside the modelled fragment
and are refused. -/
def parseNum (cs : List Char) : Option (Int × List Char) :=
  let p := match cs with
    | '-' :: t => (true, t)
    | _ => (false, cs)
  let ds := p.2.takeWhile Char.isDigit
  let rest := p.2.dropWhile Char.isDigit
  if ds = [] then none
  else if 1 < ds.length ∧ ds.head? = some '0' then none
  else
    match rest with
    | '.' :: _ => none
    | 'e' :: _ => none
    | 'E' :: _ => none
    | _ => some (if p.1 then -(digitsToNat ds : Int) else (digitsToNat ds : Int), rest)

mutual

/-- Parse one JSON value, `json.loads`-style, with fuel bounding nesting. -/
def parseVal : Nat → List Char → Option (Json × List Char)
  | 0, _ => none
  | fuel + 1, cs =>
    match skipWs cs with
    | [] => none
    | '"' :: rest =>
      match parseStrGo (rest.length + 1) rest with
      | some (s, r) => some (Json.str (String.mk s), r)
      | none => none
    | '{' :: rest =>
      match skipWs rest with
      | '}' :: r2 => some (Json.obj [], r2)
      | r2 => parseMembers fuel r2 []
    | '[' :: rest =>
      match skipWs rest with
      | ']' :: r2 => some (Json.arr [], r2)
      | r2 => parseElems fuel r2 []
    | 't' :: 'r' :: 'u' :: 'e' :: rest => some (Json.bool true, rest)
    | 'f' :: 'a' :: 'l' :: 's' :: 'e' :: rest => some (Json.bool false, rest)
    | 'n' :: 'u' :: 'l' :: 'l' :: rest => some (Json.null, rest)
    | cs2 =>
      match parseNum cs2 with
      | some (n, rest) => some (Json.num n, rest)
      | none => none

/-- Parse the members of a JSON object after its first `{` (non-empty case). -/
def parseMembers : Nat → List Char → List (String × Json) → Option (Json × List Char)
  | 0, _, _ => none
  | fuel + 1, cs, acc =>
    match skipWs cs with
    | '"' :: rest =>
      match parseStrGo (rest.length + 1) rest with
      | some (k, r1) =>
        match skipWs r1 with
        | ':' :: r2 =>
          match parseVal fuel r2 with
          | some (v, r3) =>
            match skipWs r3 with
            | ',' :: r4 => parseMembers fuel r4 (acc ++ [(String.mk k, v)])
            | '}' :: r4 => some (Json.obj (acc ++ [(String.mk k, v)]), r4)
            | _ => none
          | none => none
        | _ => none
      | none => none
    | _ => none

/-- Parse the elements of a JSON array after its `[` (non-empty case). -/
def parseElems : Nat → List Char → List Json → Option (Json × List Char)
  | 0, _, _ => none
  | fuel + 1, cs, acc =>
    match parseVal fuel cs with
    | some (v, r1) =>
      match skipWs r1 with
      | ',' :: r2 => parseElems fuel r2 (acc ++ [v])
      | ']' :: r2 => some (Json.arr (acc ++ [v]), r2)
      | _ => none
    | none => none

end

/-- `json.loads`: parse one value and require only whitespace after it. -/
def jsonLoads (cs : List Char) : Option Json :=
  match parseVal (cs.length + 1) cs with
  | some (v, rest) => if skipWs rest = [] then some v else none
  | none => none

/-- Index of the first occurrence of a character (Python `str.find`,
`none` for `-1`). -/
def firstIdxOf (cs : List Char) (c : Char) : Option Nat :=
  match cs with
  | [] => none
  | x :: xs => if x = c then some 0 else (firstIdxOf xs c).map (· + 1)

/-- Index of the last occurrence of a character (Python `str.rfind`,
`none` for `-1`). -/
def lastIdxOf (cs : List Char) (c : Char) : Option Nat :=
  match firstIdxOf cs.reverse c with
  | some i => some (cs.length - 1 - i)
  | none => none

/-- The brace-slice step of `parse_json_response`: locate the first `{` and
the last `}` and slice to that span when both are found in order, otherwise
leave the text unchanged. -/
def braceSlice (cs : List Char) : List Char :=
  match firstIdxOf cs '{', lastIdxOf cs '}' with
  | some s, some e => if s < e then (cs.drop s).take (e - s + 1) else cs
  | some _, none => cs
  | none, _ => cs

/-- `re.sub(r"^(three backticks)(?:json)?", "", ·)`: drop the leading fence
marker, with its optional `json` language tag, from text known to start with
a fence. -/
def dropFenceMarker (cs : List Char) : List Char :=
  if cs.take 7 = ['`', '`', '`', 'j', 's', 'o', 'n'] then cs.drop 7 else cs.drop 3

/-- The fence-stripping step of `parse_json_response` (applied when the
stripped reply starts with three backticks): drop the leading marker, strip,
drop a trailing marker if present, strip again. -/
def stripFences (cs : List Char) : List Char :=
  let c1 := pyStripL (dropFenceMarker cs)
  pyStripL (if c1.reverse.take 3 = ['`', '`', '`'] then (c1.reverse.drop 3).reverse else c1)

/-- Valid JSON escape characters, as in the repair regex character class
`["\\/bfnrtu]`. -/
def validEscChar (c : Char) : Bool :=
  c = '"' || c = '\\' || c = '/' || c = 'b' || c = 'f' || c = 'n' || c = 'r' || c = 't' || c = 'u'

/-- Whether the next character (the regex lookahead) is a valid escape
character; at the end of the text there is none. -/
def headValidEsc : List Char → Bool
  | [] => false
  | c :: _ => validEscChar c

/-- One pass of `re.sub(r"(?<!\\)\\(?![\"\\/bfnrtu])", r"\\\\", ·)`: double
every backslash that is not preceded by a backslash and not followed by a
valid escape character.  The Boolean state records whether the previous
character of the original text was a backslash (the lookbehind). -/
def repairGo : Bool → List Char → List Char
  | _, [] => []
  | prevBS, c :: cs =>
    cond (c == '\\')
      (cond (!prevBS && !(headValidEsc cs))
        ('\\' :: '\\' :: repairGo true cs)
        ('\\' :: repairGo true cs))
      (c :: repairGo false cs)

/-- The decoder's single repair pass over the whole candidate text. -/
def repairBackslashes (cs : List Char) : List Char :=
  repairGo false cs

/-- Texts the repair pass leaves unchanged: every backslash is either
preceded by a backslash or followed by a valid escape character. -/
def goodBS : Bool → List Char → Bool
  | _, [] => true
  | prevBS, c :: cs =>
    cond (c == '\\')
      ((prevBS || headValidEsc cs) && goodBS true cs)
      (goodBS false cs)

/-- The extraction phase of `parse_json_response`: strip, remove fence
markers when present, slice to the outermost brace span. -/
def extractCandidate (text : String) : List Char :=
  let cand := pyStripL text.toList
  let cand := if cand.take 3 = ['`', '`', '`'] then stripFences cand else cand
  braceSlice cand

/-- `parse_json_response`: extract the candidate JSON span, attempt a strict
parse, and on failure retry once after the backslash repair pass.  `none`
models the terminal `json.JSONDecodeError`. -/
def parse_json_response (text : String) : Option Json :=
  let cand := extractCandidate text
  match jsonLoads cand with
  | some v => some v
  | none => jsonLoads (repairBackslashes cand)

/-- A list whose head fails the predicate is untouched by `dropWhile`. -/
theorem dropWhile_eq_self_of_headFalse (p : Char → Bool) (cs : List Char) (c : Char)
    (h : cs.head? = some c) (hc : p c = false) : cs.dropWhile p = cs := by
  cases cs with
  | nil => rfl
  | cons x xs =>
    simp only [List.head?_cons, Option.some.injEq] at h
    subst h
    simp [List.dropWhile, hc]

/-- `dropWhile` over an append stops no later than the second part's head
when that head fails the predicate. -/
theorem dropWhile_append_headFalse (p : Char → Bool) (xs ys : List Char) (c : Char)
    (hy : ys.head? = some c) (hc : p c = false) :
    (xs ++ ys).dropWhile p = xs.dropWhile p ++ ys := by
  induction xs with
  | nil => simpa using dropWhile_eq_self_of_headFalse p ys c hy hc
  | cons x xt ih =>
    by_cases hx : p x
    · simpa [List.dropWhile, hx] using ih
    · simp [List.dropWhile, hx]

/-- Python `strip` leaves a text alone whose two ends are non-whitespace. -/
theorem pyStripL_of_ends (cs : List Char) (c1 c2 : Char)
    (h1 : cs.head? = some c1) (h2 : cs.getLast? = some c2)
    (w1 : isPyWs c1 = false) (w2 : isPyWs c2 = false) : pyStripL cs = cs := by
  unfold pyStripL
  rw [dropWhile_eq_self_of_headFalse isPyWs cs c1 h1 w1]
  rw [dropWhile_eq_self_of_headFalse isPyWs cs.reverse c2 (by rw [List.head?_reverse]; exact h2) w2]
  exact List.reverse_reverse cs

/-- Python `strip` of `prose ++ body` with non-whitespace body ends only
strips the prose's leading whitespace. -/
theorem pyStripL_append (pr body : List Char) (c1 c2 : Char)
    (h1 : body.head? = some c1) (h2 : body.getLast? = some c2)
    (w1 : isPyWs c1 = false) (w2 : isPyWs c2 = false) :
    pyStripL (pr ++ body) = pr.dropWhile isPyWs ++ body := by
  unfold pyStripL
  rw [dropWhile_append_headFalse isPyWs pr body c1 h1 w1]
  have hb : body ≠ [] := by intro h; subst h; simp at h1
  have hh : (pr.dropWhile isPyWs ++ body).reverse.head? = some c2 := by
    rw [List.head?_reverse, List.getLast?_append_of_ne_nil _ hb]; exact h2
  rw [dropWhile_eq_self_of_headFalse isPyWs _ c2 hh w2, List.reverse_reverse]

/-- `str.find` sees the first occurrence at the head. -/
theorem firstIdxOf_cons_self (c : Char) (cs : List Char) : firstIdxOf (c :: cs) c = some 0 := by
  simp [firstIdxOf]

/-- `str.find` over an append whose first part lacks the character. -/
theorem firstIdxOf_append_of_not_mem (xs ys : List Char) (c : Char) (h : c ∉ xs) :
    firstIdxOf (xs ++ ys) c = (firstIdxOf ys c).map (· + xs.length) := by
  induction xs with
  | nil => cases hy : firstIdxOf ys c <;> simp [hy]
  | cons x xt ih =>
    have hxc : ¬ (x = c) := by intro hx; exact h (hx ▸ List.mem_cons_self x xt)
    have hm : c ∉ xt := fun hm => h (List.mem_cons_of_mem x hm)
    rw [List.cons_append]
    rw [show firstIdxOf (x :: (xt ++ ys)) c = (firstIdxOf (xt ++ ys) c).map (· + 1) from by
      simp [firstIdxOf, hxc]]
    rw [ih hm]
    cases hy : firstIdxOf ys c
    · simp
    · simp only [Option.map_map, Option.map_some]
      congr 1

/-- `str.rfind` over an append whose second part ends with the character. -/
theorem lastIdxOf_append_getLast (pr cs : List Char) (c : Char)
    (h2 : cs.getLast? = some c) :
    lastIdxOf (pr ++ cs) c = some (pr.length + cs.length - 1) := by
  have hb : cs ≠ [] := by intro h; subst h; simp at h2
  have hrev : cs.reverse.head? = some c := by rw [List.head?_reverse]; exact h2
  unfold lastIdxOf
  rw [List.reverse_append]
  cases hcr : cs.reverse with
  | nil => rw [hcr] at hrev; simp at hrev
  | cons y ys =>
    rw [hcr] at hrev
    simp only [List.head?_cons, Option.some.injEq] at hrev
    subst hrev
    rw [List.cons_append, firstIdxOf_cons_self]
    simp [List.length_append]

/-- The brace slice is the identity on a text that is already one
`{...}` span. -/
theorem braceSlice_eq_self (cs : List Char)
    (h1 : cs.head? = some '{') (h2 : cs.getLast? = some '}') (h3 : 2 ≤ cs.length) :
    braceSlice cs = cs := by
  cases cs with
  | nil => simp at h1
  | cons x xs =>
    simp only [List.head?_cons, Option.some.injEq] at h1
    subst h1
    have hlast : lastIdxOf ('{' :: xs) '}' = some (0 + ('{' :: xs).length - 1) := by
      simpa using lastIdxOf_append_getLast [] ('{' :: xs) '}' h2
    unfold braceSlice
    rw [firstIdxOf_cons_self, hlast]
    simp only [List.length_cons, Nat.zero_add]
    have hlt : 0 < xs.length + 1 - 1 := by
      simp only [List.length_cons] at h3; omega
    rw [if_pos hlt]
    have : xs.length + 1 - 1 - 0 + 1 = xs.length + 1 := by omega
    simp [this, List.take_of_length_le]

/-- The brace slice recovers the `{...}` span after leading prose free of
`{`. -/
theorem braceSlice_append_left (pr cs : List Char) (hp : ('{' : Char) ∉ pr)
    (h1 : cs.head? = some '{') (h2 : cs.getLast? = some '}') (h3 : 2 ≤ cs.length) :
    braceSlice (pr ++ cs) = cs := by
  have hb : cs ≠ [] := by intro h; subst h; simp at h1
  have hfirst : firstIdxOf (pr ++ cs) '{' = some pr.length := by
    rw [firstIdxOf_append_of_not_mem pr cs '{' hp]
    cases cs with
    | nil => simp at h1
    | cons x xs =>
      simp only [List.head?_cons, Option.some.injEq] at h1
      subst h1
      rw [firstIdxOf_cons_self]
      simp
  have hlast : lastIdxOf (pr ++ cs) '}' = some (pr.length + cs.length - 1) :=
    lastIdxOf_append_getLast pr cs '}' h2
  have hlt : pr.length < pr.length + cs.length - 1 := by omega
  simp only [braceSlice, hfirst, hlast, if_pos hlt, List.drop_left pr cs]
  have : pr.length + cs.length - 1 - pr.length + 1 = cs.length := by omega
  rw [this, List.take_of_length_le (Nat.le_refl _)]

/-- Unfolding `repairGo` at a backslash head. -/
theorem repairGo_cons_bs (b : Bool) (cs : List Char) :
    repairGo b ('\\' :: cs) =
      cond (!b && !(headValidEsc cs))
        ('\\' :: '\\' :: repairGo true cs)
        ('\\' :: repairGo true cs) := rfl

/-- Unfolding `repairGo` at a non-backslash head. -/
theorem repairGo_cons_ne (b : Bool) (c : Char) (cs : List Char) (hc : ¬ (c = '\\')) :
    repairGo b (c :: cs) = c :: repairGo false cs := by
  have hb : (c == '\\') = false := beq_eq_false_iff_ne.mpr hc
  simp only [repairGo, hb, Bool.cond_false]

/-- Unfolding `goodBS` at a backslash head. -/
theorem goodBS_cons_bs (b : Bool) (cs : List Char) :
    goodBS b ('\\' :: cs) = ((b || headValidEsc cs) && goodBS true cs) := rfl

/-- Unfolding `goodBS` at a non-backslash head. -/
theorem goodBS_cons_ne (b : Bool) (c : Char) (cs : List Char) (hc : ¬ (c = '\\')) :
    goodBS b (c :: cs) = goodBS false cs := by
  have hb : (c == '\\') = false := beq_eq_false_iff_ne.mpr hc
  simp only [goodBS, hb, Bool.cond_false]

/-- The repair pass leaves a well-escaped text unchanged. -/
theorem repairGo_of_goodBS (b : Bool) (cs : List Char) (h : goodBS b cs = true) :
    repairGo b cs = cs := by
  induction cs generalizing b with
  | nil => rfl
  | cons c cs ih =>
    by_cases hc : c = '\\'
    · subst hc
      rw [goodBS_cons_bs, Bool.and_eq_true, Bool.or_eq_true] at h
      have hcond : (!b && !(headValidEsc cs)) = false := by
        rcases h.1 with hb | he
        · rw [hb]; rfl
        · rw [he]; simp
      rw [repairGo_cons_bs, hcond, Bool.cond_false, ih true h.2]
    · rw [goodBS_cons_ne b c cs hc] at h
      rw [repairGo_cons_ne b c cs hc, ih false h]

/-- When the head is not a backslash, the lookbehind state is irrelevant. -/
theorem repairGo_state_irrel (b b' : Bool) (cs : List Char) (h : cs.head? ≠ some '\\') :
    repairGo b cs = repairGo b' cs := by
  cases cs with
  | nil => rfl
  | cons c t =>
    have hc : ¬ (c = '\\') := by
      intro hc; exact h (by rw [hc]; rfl)
    rw [repairGo_cons_ne b c t hc, repairGo_cons_ne b' c t hc]

/-- The repair pass distributes over an append whose first part does not end
in a backslash (so the lookahead never crosses the boundary). -/
theorem repairGo_append (b : Bool) (xs ys : List Char) (hne : xs ≠ [])
    (h : xs.getLast? ≠ some '\\') :
    repairGo b (xs ++ ys) = repairGo b xs ++ repairGo false ys := by
  induction xs generalizing b with
  | nil => exact absurd rfl hne
  | cons x xt ih =>
    by_cases hxt : xt = []
    · subst hxt
      have hx : ¬ (x = '\\') := by
        intro hx; exact h (by rw [hx]; rfl)
      rw [List.cons_append, List.nil_append, repairGo_cons_ne b x ys hx,
        repairGo_cons_ne b x [] hx]
      rfl
    · have hcons : (x :: xt).getLast? = xt.getLast? := by
        cases xt with
        | nil => exact absurd rfl hxt
        | cons y yt => rfl
      have hlast : xt.getLast? ≠ some '\\' := by rw [← hcons]; exact h
      by_cases hx : x = '\\'
      · subst hx
        have hhead : headValidEsc (xt ++ ys) = headValidEsc xt := by
          cases xt with
          | nil => exact absurd rfl hxt
          | cons y yt => rfl
        rw [List.cons_append, repairGo_cons_bs, repairGo_cons_bs, hhead,
          ih true hxt hlast]
        cases hcond : (!b && !(headValidEsc xt)) <;> simp
      · rw [List.cons_append, repairGo_cons_ne b x (xt ++ ys) hx,
          repairGo_cons_ne b x xt hx, ih false hxt hlast, List.cons_append]

/-- Case (b) of the decoder-robustness property: the reply wrapped in a
fenced-code marker with a `json` language tag. -/
def fenceWrap (body : List Char) : List Char :=
  '`' :: '`' :: '`' :: 'j' :: 's' :: 'o' :: 'n' :: '\n' :: (body ++ '\n' :: '`' :: '`' :: '`' :: [])

/-- A text opening with `{` does not open with a fence marker. -/
theorem take3_ne_fence (body : List Char) (h1 : body.head? = some '{') :
    body.take 3 ≠ ['`', '`', '`'] := by
  cases body with
  | nil => simp at h1
  | cons x xs =>
    simp only [List.head?_cons, Option.some.injEq] at h1
    subst h1
    intro hcontra
    simp only [List.take_succ_cons, List.cons.injEq] at hcontra
    exact absurd hcontra.1 (by decide)

/-- The extraction phase is the identity on a clean `{...}` reply. -/
theorem extractCandidate_plain (body : List Char)
    (h1 : body.head? = some '{') (h2 : body.getLast? = some '}') (h3 : 2 ≤ body.length) :
    extractCandidate (String.mk body) = body := by
  have hstrip : pyStripL body = body :=
    pyStripL_of_ends body '{' '}' h1 h2 (by decide) (by decide)
  have hfence := take3_ne_fence body h1
  simp only [extractCandidate]
  rw [show (String.mk body).toList = body from rfl, hstrip, if_neg hfence]
  exact braceSlice_eq_self body h1 h2 h3

/-- The extraction phase discards leading prose (free of `{`, not opening a
fence) before a `{...}` reply. -/
theorem extractCandidate_prose (pr body : List Char)
    (hp : ('{' : Char) ∉ pr)
    (h1 : body.head? = some '{') (h2 : body.getLast? = some '}') (h3 : 2 ≤ body.length)
    (hfence : (pr.dropWhile isPyWs ++ body).take 3 ≠ ['`', '`', '`']) :
    extractCandidate (String.mk (pr ++ body)) = body := by
  have hstrip : pyStripL (pr ++ body) = pr.dropWhile isPyWs ++ body :=
    pyStripL_append pr body '{' '}' h1 h2 (by decide) (by decide)
  simp only [extractCandidate]
  rw [show (String.mk (pr ++ body)).toList = pr ++ body from rfl, hstrip, if_neg hfence]
  exact braceSlice_append_left (pr.dropWhile isPyWs) body
    (fun hm => hp ((List.dropWhile_sublist isPyWs).subset hm)) h1 h2 h3

/-- The extraction phase strips a fence wrap down to the `{...}` reply. -/
theorem extractCandidate_fenced (body : List Char)
    (h1 : body.head? = some '{') (h2 : body.getLast? = some '}') (h3 : 2 ≤ body.length) :
    extractCandidate (String.mk (fenceWrap body)) = body := by
  have hbne : body ≠ [] := by intro hb; subst hb; simp at h1
  have hsuf : (body ++ '\n' :: '`' :: '`' :: '`' :: []).getLast? = some '`' := by
    rw [List.getLast?_append_of_ne_nil body (by simp)]
    rfl
  have hlastfw : (fenceWrap body).getLast? = some '`' := by
    show ((['`', '`', '`', 'j', 's', 'o', 'n', '\n'] : List Char)
      ++ (body ++ '\n' :: '`' :: '`' :: '`' :: [])).getLast? = some '`'
    rw [List.getLast?_append_of_ne_nil _ (by simp)]
    exact hsuf
  have hstrip : pyStripL (fenceWrap body) = fenceWrap body :=
    pyStripL_of_ends _ '`' '`' rfl hlastfw (by decide) (by decide)
  have hdw : List.dropWhile isPyWs (body ++ '\n' :: '`' :: '`' :: '`' :: [])
      = body ++ '\n' :: '`' :: '`' :: '`' :: [] := by
    apply dropWhile_eq_self_of_headFalse isPyWs _ '{'
    · rw [List.head?_append_of_ne_nil body hbne]; exact h1
    · decide
  have hc1 : pyStripL ('\n' :: (body ++ '\n' :: '`' :: '`' :: '`' :: []))
      = body ++ '\n' :: '`' :: '`' :: '`' :: [] := by
    unfold pyStripL
    rw [show List.dropWhile isPyWs ('\n' :: (body ++ '\n' :: '`' :: '`' :: '`' :: []))
        = List.dropWhile isPyWs (body ++ '\n' :: '`' :: '`' :: '`' :: []) from rfl]
    rw [hdw]
    rw [dropWhile_eq_self_of_headFalse isPyWs
      (body ++ '\n' :: '`' :: '`' :: '`' :: []).reverse '`'
      (by rw [List.head?_reverse]; exact hsuf) (by decide)]
    exact List.reverse_reverse _
  have hrev : (body ++ '\n' :: '`' :: '`' :: '`' :: []).reverse
      = '`' :: '`' :: '`' :: '\n' :: body.reverse := by
    rw [show ('\n' :: '`' :: '`' :: '`' :: [] : List Char)
        = ['\n', '`', '`', '`'] from rfl, List.reverse_append]
    rfl
  have hstripped : pyStripL (body ++ ['\n']) = body := by
    unfold pyStripL
    rw [dropWhile_eq_self_of_headFalse isPyWs (body ++ ['\n']) '{'
      (by rw [List.head?_append_of_ne_nil body hbne]; exact h1) (by decide)]
    rw [List.reverse_append]
    rw [show List.dropWhile isPyWs ((['\n'] : List Char).reverse ++ body.reverse)
        = List.dropWhile isPyWs body.reverse from rfl]
    rw [dropWhile_eq_self_of_headFalse isPyWs body.reverse '}'
      (by rw [List.head?_reverse]; exact h2) (by decide)]
    exact List.reverse_reverse _
  simp only [extractCandidate]
  rw [show (String.mk (fenceWrap body)).toList = fenceWrap body from rfl, hstrip]
  rw [if_pos (show (fenceWrap body).take 3 = ['`', '`', '`'] from rfl)]
  simp only [stripFences, dropFenceMarker]
  rw [if_pos (show (fenceWrap body).take 7 = ['`', '`', '`', 'j', 's', 'o', 'n'] from rfl)]
  rw [show (fenceWrap body).drop 7 = '\n' :: (body ++ '\n' :: '`' :: '`' :: '`' :: []) from rfl]
  rw [hc1, hrev]
  rw [if_pos (show ('`' :: '`' :: '`' :: '\n' :: body.reverse).take 3 = ['`', '`', '`'] from rfl)]
  rw [show ('`' :: '`' :: '`' :: '\n' :: body.reverse).drop 3 = '\n' :: body.reverse from rfl]
  rw [show ('\n' :: body.reverse).reverse = body.reverse.reverse ++ ['\n'] from by
    rw [List.reverse_cons]]
  rw [List.reverse_reverse, hstripped]
  exact braceSlice_eq_self body h1 h2 h3

/-- Claim C3: the Response Decoder yields the same structured record for the
clean strict-JSON reply (written `u ++ "\\\\" ++ w`, i.e. containing one
escaped backslash), for the same reply wrapped in code-fence markers, for the
same reply preceded by extraneous prose before the first `{`, and for the
same reply with that escape collapsed to one lone backslash not followed by a
valid JSON escape character; all four decode to the same mapping `v`. -/
theorem c3_decoder_robustness
    (u w prose : List Char) (v : Json)
    (hu : u.head? = some '{') (hw0 : w ≠ []) (hwl : w.getLast? = some '}')
    (hgu : goodBS false u = true) (hul : u.getLast? ≠ some '\\')
    (hgw : goodBS false w = true) (hwh : headValidEsc w = false)
    (hparse : jsonLoads (u ++ '\\' :: '\\' :: w) = some v)
    (hdirty : jsonLoads (u ++ '\\' :: w) = none)
    (hpr : ('{' : Char) ∉ prose)
    (hfence : (prose.dropWhile isPyWs ++ (u ++ '\\' :: '\\' :: w)).take 3 ≠ ['`', '`', '`']) :
    parse_json_response (String.mk (u ++ '\\' :: '\\' :: w)) = some v
    ∧ parse_json_response (String.mk (fenceWrap (u ++ '\\' :: '\\' :: w))) = some v
    ∧ parse_json_response (String.mk (prose ++ (u ++ '\\' :: '\\' :: w))) = some v
    ∧ parse_json_response (String.mk (u ++ '\\' :: w)) = some v := by
  have hune : u ≠ [] := by intro h; subst h; simp at hu
  have hbodyh : (u ++ '\\' :: '\\' :: w).head? = some '{' := by
    rw [List.head?_append_of_ne_nil u hune]; exact hu
  have hbodyl : (u ++ '\\' :: '\\' :: w).getLast? = some '}' := by
    rw [List.getLast?_append_of_ne_nil u (by simp)]
    rw [show ('\\' :: '\\' :: w : List Char) = ['\\', '\\'] ++ w from rfl,
      List.getLast?_append_of_ne_nil _ hw0]
    exact hwl
  have hbodylen : 2 ≤ (u ++ '\\' :: '\\' :: w).length := by
    rw [List.length_append, List.length_cons, List.length_cons]
    omega
  have hdh : (u ++ '\\' :: w).head? = some '{' := by
    rw [List.head?_append_of_ne_nil u hune]; exact hu
  have hdl : (u ++ '\\' :: w).getLast? = some '}' := by
    rw [List.getLast?_append_of_ne_nil u (by simp)]
    rw [show ('\\' :: w : List Char) = ['\\'] ++ w from rfl,
      List.getLast?_append_of_ne_nil _ hw0]
    exact hwl
  have hdlen : 2 ≤ (u ++ '\\' :: w).length := by
    have hulen : 0 < u.length := List.length_pos.mpr hune
    rw [List.length_append, List.length_cons]
    omega
  have hE1 := extractCandidate_plain _ hbodyh hbodyl hbodylen
  have hE2 := extractCandidate_fenced _ hbodyh hbodyl hbodylen
  have hE3 := extractCandidate_prose prose _ hpr hbodyh hbodyl hbodylen hfence
  have hE4 := extractCandidate_plain _ hdh hdl hdlen
  have hrep : repairBackslashes (u ++ '\\' :: w) = u ++ '\\' :: '\\' :: w := by
    unfold repairBackslashes
    rw [repairGo_append false u ('\\' :: w) hune hul, repairGo_of_goodBS false u hgu]
    rw [repairGo_cons_bs]
    rw [show (!false && !(headValidEsc w)) = true from by rw [hwh]; rfl]
    rw [Bool.cond_true]
    have hwhd : w.head? ≠ some '\\' := by
      intro hcon
      cases w with
      | nil => simp at hcon
      | cons a t =>
        simp only [List.head?_cons, Option.some.injEq] at hcon
        subst hcon
        exact absurd hwh (by simp [headValidEsc, validEscChar])
    rw [repairGo_state_irrel true false w hwhd, repairGo_of_goodBS false w hgw]
  refine ⟨?_, ?_, ?_, ?_⟩
  · simp only [parse_json_response]
    rw [hE1, hparse]
  · simp only [parse_json_response]
    rw [hE2, hparse]
  · simp only [parse_json_response]
    rw [hE3, hparse]
  · simp only [parse_json_response]
    rw [hE4, hdirty, hrep, hparse]

/-- Witness for C3 at the concrete reply `formed of {"a": "x\\q"}`: the clean,
fenced, prose-prefixed and invalid-escape variants all decode to the same
record. -/
theorem c3_witness :
    parse_json_response (String.mk (("\x7b\"a\": \"x").toList ++ '\\' :: '\\' :: ("q\"\x7d").toList))
      = some (Json.obj [("a", Json.str "x\\q")])
    ∧ parse_json_response (String.mk (fenceWrap (("\x7b\"a\": \"x").toList ++ '\\' :: '\\' :: ("q\"\x7d").toList)))
      = some (Json.obj [("a", Json.str "x\\q")])
    ∧ parse_json_response (String.mk (("Answer: ").toList ++ (("\x7b\"a\": \"x").toList ++ '\\' :: '\\' :: ("q\"\x7d").toList)))
      = some (Json.obj [("a", Json.str "x\\q")])
    ∧ parse_json_response (String.mk (("\x7b\"a\": \"x").toList ++ '\\' :: ("q\"\x7d").toList))
      = some (Json.obj [("a", Json.str "x\\q")]) :=
  c3_decoder_robustness ("\x7b\"a\": \"x").toList ("q\"\x7d").toList ("Answer: ").toList
    (Json.obj [("a", Json.str "x\\q")])
    rfl (by decide) rfl (by decide) (by decide) (by decide) (by decide)
    rfl rfl (by decide) (by decide)

/-- The slug alphabet `[a-z0-9]` of the regex in `slugify`. -/
def isSlugChar (c : Char) : Bool :=
  ('a' ≤ c && c ≤ 'z') || ('0' ≤ c && c ≤ '9')

/-- `re.sub(r"[^a-z0-9]+", "-", ·)`: replace every maximal run of
non-alphanumeric characters by a single hyphen.  The Boolean records whether
the scan is inside such a run. -/
def collapseGo : Bool → List Char → List Char
  | _, [] => []
  | inRun, c :: cs =>
    cond (isSlugChar c)
      (c :: collapseGo false cs)
      (cond inRun (collapseGo true cs) ('-' :: collapseGo true cs))

/-- Python `str.strip("-")`: drop hyphens at both ends. -/
def stripHyphens (cs : List Char) : List Char :=
  ((cs.dropWhile (· == '-')).reverse.dropWhile (· == '-')).reverse

/-- `slugify`: lowercase, strip, collapse non-alphanumeric runs to hyphens,
strip hyphens, truncate to 80 characters, with the fixed fallback for an
empty result.  `Char.toLower` models Python `str.lower` on the ASCII
fragment (non-ASCII characters are all replaced by the regex step anyway). -/
def slugify (text : String) : String :=
  let cs := pyStripL (text.toList.map Char.toLower)
  let cs := collapseGo false cs
  let cs := stripHyphens cs
  let cs := cs.take 80
  if cs = [] then "untitled" else String.mk cs

/-- Every character the collapse step emits is alphanumeric or a hyphen. -/
theorem collapseGo_chars (b : Bool) (cs : List Char) :
    ∀ c ∈ collapseGo b cs, isSlugChar c = true ∨ c = '-' := by
  induction cs generalizing b with
  | nil => intro c hc; simp [collapseGo] at hc
  | cons x xs ih =>
    intro c hc
    by_cases hx : isSlugChar x
    · rw [show collapseGo b (x :: xs) = x :: collapseGo false xs from by
        simp [collapseGo, hx]] at hc
      rcases List.mem_cons.mp hc with h | h
      · subst h; exact Or.inl hx
      · exact ih false c h
    · rw [show collapseGo b (x :: xs)
          = cond b (collapseGo true xs) ('-' :: collapseGo true xs) from by
        simp only [collapseGo, Bool.not_eq_true] at hx ⊢
        rw [show isSlugChar x = false from by simpa using hx]
        rfl] at hc
      cases b with
      | true => exact ih true c (by simpa using hc)
      | false =>
        rcases List.mem_cons.mp (by simpa using hc) with h | h
        · subst h; exact Or.inr rfl
        · exact ih true c h

/-- Membership survives `stripHyphens` (it only removes characters). -/
theorem stripHyphens_subset (cs : List Char) : ∀ c ∈ stripHyphens cs, c ∈ cs := by
  intro c hc
  unfold stripHyphens at hc
  rw [List.mem_reverse] at hc
  have h1 := (List.dropWhile_sublist (· == '-')).subset hc
  rw [List.mem_reverse] at h1
  exact (List.dropWhile_sublist (· == '-')).subset h1

/-- Claim C5: `slugify` is pure and total (it is a Lean function), and for
every input — the empty string and all-punctuation strings included — the
result is non-empty, at most 80 characters long, and consists only of
lowercase letters, digits and hyphens, with the fixed fallback `"untitled"`
covering the empty case. -/
theorem c5_slugify_props (s : String) :
    slugify s ≠ ""
    ∧ (slugify s).length ≤ 80
    ∧ ∀ c ∈ (slugify s).toList, isSlugChar c = true ∨ c = '-' := by
  unfold slugify
  set base := stripHyphens (collapseGo false (pyStripL (s.toList.map Char.toLower))) with hbase
  by_cases h : base.take 80 = []
  · rw [if_pos h]
    refine ⟨by decide, by decide, ?_⟩
    intro c hc
    have : c ∈ ['u', 'n', 't', 'i', 't', 'l', 'e', 'd'] := hc
    fin_cases this <;> simp [isSlugChar]
  · rw [if_neg h]
    refine ⟨?_, ?_, ?_⟩
    · intro hcon
      exact h (by simpa using congrArg String.toList hcon)
    · show (String.mk (base.take 80)).length ≤ 80
      have : (String.mk (base.take 80)).length = (base.take 80).length := rfl
      rw [this]
      exact le_trans (List.length_take_le 80 base) (Nat.le_refl 80)
    · intro c hc
      have hc' : c ∈ base.take 80 := hc
      have hmem : c ∈ base := (List.take_sublist 80 base).subset hc'
      have hmem2 : c ∈ collapseGo false (pyStripL (s.toList.map Char.toLower)) :=
        stripHyphens_subset _ c hmem
      exact collapseGo_chars false _ c hmem2

/-- Witness for C5 at concrete inputs, an all-punctuation string included. -/
theorem c5_witness :
    (slugify "Hello, World!" ≠ ""
      ∧ (slugify "Hello, World!").length ≤ 80
      ∧ ∀ c ∈ (slugify "Hello, World!").toList, isSlugChar c = true ∨ c = '-')
    ∧ (slugify "!!!" ≠ ""
      ∧ (slugify "!!!").length ≤ 80
      ∧ ∀ c ∈ (slugify "!!!").toList, isSlugChar c = true ∨ c = '-') :=
  ⟨c5_slugify_props "Hello, World!", c5_slugify_props "!!!"⟩

/-- One Python `str.replace(old, new)` pass (single-character pattern). -/
def replaceChar (target : Char) (repl : List Char) : List Char → List Char
  | [] => []
  | c :: cs => (cond (c == target) repl [c]) ++ replaceChar target repl cs

/-- `yaml_quote`: escape backslashes then double quotes, exactly the two
chained `str.replace` calls of the source. -/
def yaml_quote (s : String) : String :=
  String.mk (replaceChar '"' ['\\', '"'] (replaceChar '\\' ['\\', '\\'] s.toList))

/-- The fused single pass the two chained replaces amount to (proved
equivalent in `yaml_quote_fused`). -/
def yamlQuoteL : List Char → List Char
  | [] => []
  | c :: cs =>
    cond (c == '\\') ('\\' :: '\\' :: yamlQuoteL cs)
      (cond (c == '"') ('\\' :: '"' :: yamlQuoteL cs) (c :: yamlQuoteL cs))

theorem replaceChar_append (t : Char) (r xs ys : List Char) :
    replaceChar t r (xs ++ ys) = replaceChar t r xs ++ replaceChar t r ys := by
  induction xs with
  | nil => rfl
  | cons x xt ih => simp [replaceChar, ih, List.append_assoc]

theorem yaml_quote_fused (l : List Char) :
    replaceChar '"' ['\\', '"'] (replaceChar '\\' ['\\', '\\'] l) = yamlQuoteL l := by
  induction l with
  | nil => rfl
  | cons c cs ih =>
    show replaceChar '"' ['\\', '"']
        ((cond (c == '\\') ['\\', '\\'] [c]) ++ replaceChar '\\' ['\\', '\\'] cs)
      = yamlQuoteL (c :: cs)
    rw [replaceChar_append, ih]
    by_cases h1 : c = '\\'
    · subst h1; rfl
    · by_cases h2 : c = '"'
      · subst h2; rfl
      · have e1 : (c == '\\') = false := beq_eq_false_iff_ne.mpr h1
        have e2 : (c == '"') = false := beq_eq_false_iff_ne.mpr h2
        simp [replaceChar, yamlQuoteL, e1, e2]

/-- Read a double-quoted header value after its opening quote: characters up
to the first unescaped `\x22`, a backslash making the next character literal.
Returns the decoded value and the rest after the closing quote; `none` when no
closing quote is found.  This is the decoder against which \x22cannot break the
header's quoted-string encoding\x22 is judged. -/
def scanQuoted : Bool → List Char → Option (List Char × List Char)
  | _, [] => none
  | true, c :: rest =>
    match scanQuoted false rest with
    | some (v, r) => some (c :: v, r)
    | none => none
  | false, c :: rest =>
    cond (c == '"') (some ([], rest))
      (cond (c == '\\')
        (scanQuoted true rest)
        (match scanQuoted false rest with
          | some (v, r) => some (c :: v, r)
          | none => none))

theorem scanQuoted_roundtrip (t rest : List Char) :
    scanQuoted false (yamlQuoteL t ++ '"' :: rest) = some (t, rest) := by
  induction t with
  | nil => rfl
  | cons c cs ih =>
    by_cases h1 : c = '\\'
    · subst h1
      show scanQuoted false ('\\' :: '\\' :: (yamlQuoteL cs ++ '"' :: rest))
        = some ('\\' :: cs, rest)
      rw [show scanQuoted false ('\\' :: '\\' :: (yamlQuoteL cs ++ '"' :: rest))
          = match scanQuoted false (yamlQuoteL cs ++ '"' :: rest) with
            | some (v, r) => some ('\\' :: v, r)
            | none => none from rfl]
      rw [ih]
    · by_cases h2 : c = '"'
      · subst h2
        show scanQuoted false ('\\' :: '"' :: (yamlQuoteL cs ++ '"' :: rest))
          = some ('"' :: cs, rest)
        rw [show scanQuoted false ('\\' :: '"' :: (yamlQuoteL cs ++ '"' :: rest))
            = match scanQuoted false (yamlQuoteL cs ++ '"' :: rest) with
              | some (v, r) => some ('"' :: v, r)
              | none => none from rfl]
        rw [ih]
      · have e1 : (c == '\\') = false := beq_eq_false_iff_ne.mpr h1
        have e2 : (c == '"') = false := beq_eq_false_iff_ne.mpr h2
        rw [show yamlQuoteL (c :: cs) = c :: yamlQuoteL cs from by
          simp [yamlQuoteL, e1, e2]]
        rw [List.cons_append]
        rw [show scanQuoted false (c :: (yamlQuoteL cs ++ '"' :: rest))
            = cond (c == '"') (some ([], yamlQuoteL cs ++ '"' :: rest))
                (cond (c == '\\')
                  (scanQuoted true (yamlQuoteL cs ++ '"' :: rest))
                  (match scanQuoted false (yamlQuoteL cs ++ '"' :: rest) with
                    | some (v, r) => some (c :: v, r)
                    | none => none)) from rfl]
        rw [e1, e2, Bool.cond_false, Bool.cond_false, ih]

/-- Python `sep.join(...)`. -/
def pyJoin (sep : String) : List String → String
  | [] => ""
  | [t] => t
  | t :: ts => t ++ sep ++ pyJoin sep ts

/-- The `title` front-matter line of `write_mdx`. -/
def mdxTitleLine (title : String) : String := "title: \"" ++ yaml_quote title ++ "\""
/-- The `date` front-matter line of `write_mdx` (note: the source
interpolates the date without `yaml_quote`). -/
def mdxDateLine (date : String) : String := "date: \"" ++ date ++ "\""
/-- The `excerpt` front-matter line of `write_mdx`. -/
def mdxExcerptLine (excerpt : String) : String := "excerpt: \"" ++ yaml_quote excerpt ++ "\""
/-- The `tags` front-matter line of `write_mdx`. -/
def mdxTagsLine (tags : List String) : String :=
  "tags: [" ++ pyJoin ", " (tags.map (fun t => "\"" ++ yaml_quote t ++ "\"")) ++ "]"
/-- The `author` front-matter line of `write_mdx`. -/
def mdxAuthorLine (author : String) : String := "author: \"" ++ yaml_quote author ++ "\""

/-- The front-matter block of `write_mdx`, line by line as in the source. -/
def mdxFrontmatter (date title excerpt author : String) (tags : List String) : List String :=
  ["---", mdxTitleLine title, mdxDateLine date, mdxExcerptLine excerpt,
    mdxTagsLine tags, mdxAuthorLine author, "---", ""]

/-- `write_mdx`: the full text written to the document file — the
front-matter joined by newlines, the stripped body, one final newline. -/
def write_mdx (date title excerpt author : String) (tags : List String) (content : String) : String :=
  pyJoin "\n" (mdxFrontmatter date title excerpt author tags) ++ pyStrip content ++ "\n"

/-- Decode one `key: \x22...\x22` header line back to its value; `none` when the
line's quoted-string encoding is broken. -/
def decodeHeaderValue (key line : String) : Option String :=
  if line.toList.take (key ++ ": \"").toList.length = (key ++ ": \"").toList then
    match scanQuoted false (line.toList.drop (key ++ ": \"").toList.length) with
    | some (v, []) => some (String.mk v)
    | _ => none
  else none

theorem toList_append (a b : String) : (a ++ b).toList = a.toList ++ b.toList := rfl

theorem yaml_quote_toList (s : String) : (yaml_quote s).toList = yamlQuoteL s.toList := by
  show replaceChar '"' ['\\', '"'] (replaceChar '\\' ['\\', '\\'] s.toList) = _
  exact yaml_quote_fused s.toList

theorem decodeHeaderValue_roundtrip (key s : String) :
    decodeHeaderValue key (key ++ ": \"" ++ yaml_quote s ++ "\"") = some s := by
  unfold decodeHeaderValue
  have hl : (key ++ ": \"" ++ yaml_quote s ++ "\"").toList
      = (key ++ ": \"").toList ++ (yamlQuoteL s.toList ++ '"' :: []) := by
    rw [toList_append, toList_append, yaml_quote_toList, List.append_assoc]
    rfl
  rw [hl, List.take_left, List.drop_left, if_pos rfl, scanQuoted_roundtrip]
  rfl

/-- Read the bracketed, comma-separated quoted-string list of the tags
line. -/
def scanTagsGo : Nat → List Char → Option (List String)
  | 0, _ => none
  | _ + 1, ']' :: [] => some []
  | fuel + 1, '"' :: rest =>
    match scanQuoted false rest with
    | some (v, r) =>
      match r with
      | ']' :: [] => some [String.mk v]
      | ',' :: ' ' :: r2 =>
        match scanTagsGo fuel r2 with
        | some ts => some (String.mk v :: ts)
        | none => none
      | _ => none
    | none => none
  | _ + 1, _ => none

/-- Decode the `tags: [...]` header line back to the tag list. -/
def decodeTagsLine (line : String) : Option (List String) :=
  if line.toList.take ("tags: [").toList.length = ("tags: [").toList then
    scanTagsGo (line.toList.length + 1) (line.toList.drop ("tags: [").toList.length)
  else none

/-- The encoded character form of the tags list inside the brackets. -/
def tagsEnc : List String → List Char
  | [] => [']']
  | [t] => '"' :: (yamlQuoteL t.toList ++ '"' :: [']'])
  | t :: ts => '"' :: (yamlQuoteL t.toList ++ '"' :: ',' :: ' ' :: tagsEnc ts)

theorem pyJoin_tags_enc (tags : List String) :
    (pyJoin ", " (tags.map (fun t => "\"" ++ yaml_quote t ++ "\"")) ++ "]").toList
      = tagsEnc tags := by
  induction tags with
  | nil => rfl
  | cons t ts ih =>
    cases ts with
    | nil =>
      show (("\"" ++ yaml_quote t ++ "\"") ++ "]").toList = _
      simp only [toList_append, yaml_quote_toList]
      show ('"' :: []) ++ yamlQuoteL t.toList ++ ('"' :: []) ++ (']' :: []) = _
      simp [tagsEnc]
    | cons t2 ts2 =>
      show (("\"" ++ yaml_quote t ++ "\"" ++ ", "
          ++ pyJoin ", " ((t2 :: ts2).map (fun u => "\"" ++ yaml_quote u ++ "\""))) ++ "]").toList
        = tagsEnc (t :: t2 :: ts2)
      rw [show tagsEnc (t :: t2 :: ts2)
          = '"' :: (yamlQuoteL t.toList ++ '"' :: ',' :: ' ' :: tagsEnc (t2 :: ts2)) from rfl]
      rw [← ih]
      simp only [toList_append, yaml_quote_toList]
      show ('"' :: []) ++ yamlQuoteL t.toList ++ ('"' :: []) ++ (',' :: ' ' :: [])
          ++ (pyJoin ", " ((t2 :: ts2).map (fun u => "\"" ++ yaml_quote u ++ "\""))).toList
          ++ (']' :: [])
        = '"' :: (yamlQuoteL t.toList ++ '"' :: ',' :: ' '
            :: ((pyJoin ", " ((t2 :: ts2).map (fun u => "\"" ++ yaml_quote u ++ "\""))).toList
              ++ (']' :: [])))
      simp [List.append_assoc]

theorem scanTagsGo_enc (tags : List String) : ∀ fuel, tags.length + 1 ≤ fuel →
    scanTagsGo fuel (tagsEnc tags) = some tags := by
  induction tags with
  | nil =>
    intro fuel hf
    cases fuel with
    | zero => omega
    | succ f => rfl
  | cons t ts ih =>
    intro fuel hf
    cases fuel with
    | zero => omega
    | succ f =>
      cases ts with
      | nil =>
        show scanTagsGo (f + 1) ('"' :: (yamlQuoteL t.toList ++ '"' :: [']'])) = some [t]
        rw [show scanTagsGo (f + 1) ('"' :: (yamlQuoteL t.toList ++ '"' :: [']']))
            = (match scanQuoted false (yamlQuoteL t.toList ++ '"' :: [']']) with
              | some (v, r) =>
                (match r with
                  | ']' :: [] => some [String.mk v]
                  | ',' :: ' ' :: r2 =>
                    (match scanTagsGo f r2 with
                      | some ts => some (String.mk v :: ts)
                      | none => none)
                  | _ => none)
              | none => none) from rfl]
        rw [scanQuoted_roundtrip]
        rfl
      | cons t2 ts2 =>
        show scanTagsGo (f + 1)
            ('"' :: (yamlQuoteL t.toList ++ '"' :: ',' :: ' ' :: tagsEnc (t2 :: ts2)))
          = some (t :: t2 :: ts2)
        rw [show scanTagsGo (f + 1)
              ('"' :: (yamlQuoteL t.toList ++ '"' :: ',' :: ' ' :: tagsEnc (t2 :: ts2)))
            = (match scanQuoted false (yamlQuoteL t.toList
                  ++ '"' :: ',' :: ' ' :: tagsEnc (t2 :: ts2)) with
              | some (v, r) =>
                (match r with
                  | ']' :: [] => some [String.mk v]
                  | ',' :: ' ' :: r2 =>
                    (match scanTagsGo f r2 with
                      | some ts => some (String.mk v :: ts)
                      | none => none)
                  | _ => none)
              | none => none) from rfl]
        rw [scanQuoted_roundtrip]
        show (match scanTagsGo f (tagsEnc (t2 :: ts2)) with
            | some ts => some (String.mk t.toList :: ts)
            | none => none) = some (t :: t2 :: ts2)
        rw [ih f (by simp at hf ⊢; omega)]
        rfl

theorem tagsEnc_length (tags : List String) : tags.length ≤ (tagsEnc tags).length := by
  induction tags with
  | nil => simp [tagsEnc]
  | cons t ts ih =>
    cases ts with
    | nil => simp [tagsEnc]
    | cons t2 ts2 =>
      show (t :: t2 :: ts2).length
        ≤ ('"' :: (yamlQuoteL t.toList ++ '"' :: ',' :: ' ' :: tagsEnc (t2 :: ts2))).length
      simp only [List.length_cons, List.length_append] at ih ⊢
      omega

theorem decodeTagsLine_roundtrip (tags : List String) :
    decodeTagsLine (mdxTagsLine tags) = some tags := by
  unfold decodeTagsLine mdxTagsLine
  have hl : ("tags: [" ++ pyJoin ", " (tags.map (fun t => "\"" ++ yaml_quote t ++ "\"")) ++ "]").toList
      = ("tags: [").toList ++ tagsEnc tags := by
    rw [← pyJoin_tags_enc tags]
    simp only [toList_append]
    simp [List.append_assoc]
  rw [hl, List.take_left, List.drop_left, if_pos rfl]
  apply scanTagsGo_enc
  have := tagsEnc_length tags
  simp only [List.length_append]
  omega

theorem dropWhile_head_false (p : Char → Bool) (l : List Char) (c : Char)
    (h : (l.dropWhile p).head? = some c) : p c = false := by
  induction l with
  | nil => simp at h
  | cons x xs ih =>
    by_cases hx : p x
    · simp only [List.dropWhile_cons, hx, if_true] at h
      exact ih h
    · simp only [List.dropWhile_cons, hx, if_false, Bool.false_eq_true, List.head?_cons,
        Option.some.injEq] at h
      subst h
      simpa using hx

theorem pyStripL_getLast_not_ws (l : List Char) (c : Char)
    (h : (pyStripL l).getLast? = some c) : isPyWs c = false := by
  unfold pyStripL at h
  rw [List.getLast?_reverse] at h
  exact dropWhile_head_false isPyWs _ c h

theorem scanQuoted_plain (l rest : List Char)
    (h1 : ('"' : Char) ∉ l) (h2 : ('\\' : Char) ∉ l) :
    scanQuoted false (l ++ '"' :: rest) = some (l, rest) := by
  induction l with
  | nil => rfl
  | cons c cs ih =>
    have hc1 : ¬ (c = '"') := fun hc => h1 (hc ▸ List.mem_cons_self c cs)
    have hc2 : ¬ (c = '\\') := fun hc => h2 (hc ▸ List.mem_cons_self c cs)
    have hm1 : ('"' : Char) ∉ cs := fun hm => h1 (List.mem_cons_of_mem c hm)
    have hm2 : ('\\' : Char) ∉ cs := fun hm => h2 (List.mem_cons_of_mem c hm)
    have e1 : (c == '"') = false := beq_eq_false_iff_ne.mpr hc1
    have e2 : (c == '\\') = false := beq_eq_false_iff_ne.mpr hc2
    rw [List.cons_append]
    rw [show scanQuoted false (c :: (cs ++ '"' :: rest))
        = cond (c == '"') (some ([], cs ++ '"' :: rest))
            (cond (c == '\\')
              (scanQuoted true (cs ++ '"' :: rest))
              (match scanQuoted false (cs ++ '"' :: rest) with
                | some (v, r) => some (c :: v, r)
                | none => none)) from rfl]
    rw [e1, e2, Bool.cond_false, Bool.cond_false, ih hm1 hm2]

theorem decodeHeaderValue_plain (key s : String)
    (h1 : ('"' : Char) ∉ s.toList) (h2 : ('\\' : Char) ∉ s.toList) :
    decodeHeaderValue key (key ++ ": \"" ++ s ++ "\"") = some s := by
  unfold decodeHeaderValue
  have hl : (key ++ ": \"" ++ s ++ "\"").toList
      = (key ++ ": \"").toList ++ (s.toList ++ '"' :: []) := by
    rw [toList_append, toList_append, List.append_assoc]
    rfl
  rw [hl, List.take_left, List.drop_left, if_pos rfl, scanQuoted_plain s.toList [] h1 h2]
  rfl

theorem write_mdx_trailing (date title excerpt author content : String) (tags : List String)
    (hc : pyStripL content.toList ≠ []) :
    (write_mdx date title excerpt author tags content).toList.getLast? = some '\n'
    ∧ (write_mdx date title excerpt author tags content).toList.dropLast.getLast? ≠ some '\n' := by
  have hform : (write_mdx date title excerpt author tags content).toList
      = ((pyJoin "\n" (mdxFrontmatter date title excerpt author tags)).toList
          ++ pyStripL content.toList) ++ ['\n'] := rfl
  rw [hform]
  constructor
  · exact List.getLast?_concat _
  · rw [List.dropLast_concat, List.getLast?_append_of_ne_nil _ hc]
    intro hcon
    have := pyStripL_getLast_not_ws content.toList '\n' hcon
    simp [isPyWs] at this

/-- Claim C9, counterexample: the claim says each header field — the date
included — is string-escaped so that embedded double quotes cannot break the
header's quoted-string encoding.  The source interpolates the date verbatim,
so a date value containing a double quote produces a `date` line whose
quoted-string encoding is broken (it no longer decodes), while the escaped
`title` field survives the very same string. -/
theorem c9_counterexample :
    decodeHeaderValue "date" (mdxDateLine "2026-02-19\" title: \"x") = none
    ∧ decodeHeaderValue "title" (mdxTitleLine "2026-02-19\" title: \"x")
      = some "2026-02-19\" title: \"x" := ⟨rfl, rfl⟩

/-- Claim C9 as amended: the Document Writer produces the header lines for
date, title, excerpt, tags and author, where title, excerpt, tags and author
are string-escaped so embedded double quotes and backslashes cannot break
the header's quoted-string encoding (each line decodes back to its exact
value), and the date — always a plain `YYYY-MM-DD` key in practice — is
interpolated verbatim and survives only when it contains no quote or
backslash itself; the header is followed by the body with surrounding
whitespace trimmed and exactly one trailing newline. -/
theorem c9_document_writer (date title excerpt author content : String) (tags : List String)
    (hdq : ('"' : Char) ∉ date.toList) (hdb : ('\\' : Char) ∉ date.toList)
    (hc : pyStripL content.toList ≠ []) :
    mdxFrontmatter date title excerpt author tags
      = ["---", mdxTitleLine title, mdxDateLine date, mdxExcerptLine excerpt,
          mdxTagsLine tags, mdxAuthorLine author, "---", ""]
    ∧ decodeHeaderValue "title" (mdxTitleLine title) = some title
    ∧ decodeHeaderValue "date" (mdxDateLine date) = some date
    ∧ decodeHeaderValue "excerpt" (mdxExcerptLine excerpt) = some excerpt
    ∧ decodeTagsLine (mdxTagsLine tags) = some tags
    ∧ decodeHeaderValue "author" (mdxAuthorLine author) = some author
    ∧ write_mdx date title excerpt author tags content
        = pyJoin "\n" (mdxFrontmatter date title excerpt author tags) ++ pyStrip content ++ "\n"
    ∧ (write_mdx date title excerpt author tags content).toList.getLast? = some '\n'
    ∧ (write_mdx date title excerpt author tags content).toList.dropLast.getLast? ≠ some '\n' := by
  refine ⟨rfl, decodeHeaderValue_roundtrip "title" title,
    decodeHeaderValue_plain "date" date hdq hdb,
    decodeHeaderValue_roundtrip "excerpt" excerpt,
    decodeTagsLine_roundtrip tags,
    decodeHeaderValue_roundtrip "author" author,
    rfl,
    (write_mdx_trailing date title excerpt author content tags hc).1,
    (write_mdx_trailing date title excerpt author content tags hc).2⟩

/-- Witness for C9 at a concrete record whose title, excerpt, author and tag
contain embedded quotes and backslashes. -/
theorem c9_witness :
    mdxFrontmatter "2026-02-19" "He said \"hi\" \\ more" "An \"excerpt\"" "Ryan Dashwood"
        ["engineering", "say \"what\""]
      = ["---", mdxTitleLine "He said \"hi\" \\ more", mdxDateLine "2026-02-19",
          mdxExcerptLine "An \"excerpt\"",
          mdxTagsLine ["engineering", "say \"what\""],
          mdxAuthorLine "Ryan Dashwood", "---", ""]
    ∧ decodeHeaderValue "title" (mdxTitleLine "He said \"hi\" \\ more")
      = some "He said \"hi\" \\ more"
    ∧ decodeHeaderValue "date" (mdxDateLine "2026-02-19") = some "2026-02-19"
    ∧ decodeHeaderValue "excerpt" (mdxExcerptLine "An \"excerpt\"") = some "An \"excerpt\""
    ∧ decodeTagsLine (mdxTagsLine ["engineering", "say \"what\""])
      = some ["engineering", "say \"what\""]
    ∧ decodeHeaderValue "author" (mdxAuthorLine "Ryan Dashwood") = some "Ryan Dashwood"
    ∧ write_mdx "2026-02-19" "He said \"hi\" \\ more" "An \"excerpt\"" "Ryan Dashwood"
        ["engineering", "say \"what\""] "  body text\n\n"
        = pyJoin "\n" (mdxFrontmatter "2026-02-19" "He said \"hi\" \\ more" "An \"excerpt\""
            "Ryan Dashwood" ["engineering", "say \"what\""])
          ++ pyStrip "  body text\n\n" ++ "\n"
    ∧ (write_mdx "2026-02-19" "He said \"hi\" \\ more" "An \"excerpt\"" "Ryan Dashwood"
        ["engineering", "say \"what\""] "  body text\n\n").toList.getLast? = some '\n'
    ∧ (write_mdx "2026-02-19" "He said \"hi\" \\ more" "An \"excerpt\"" "Ryan Dashwood"
        ["engineering", "say \"what\""] "  body text\n\n").toList.dropLast.getLast?
      ≠ some '\n' :=
  c9_document_writer "2026-02-19" "He said \"hi\" \\ more" "An \"excerpt\"" "Ryan Dashwood"
    "  body text\n\n" ["engineering", "say \"what\""] (by decide) (by decide) (by decide)

/-- What one attempt of `call_openrouter` observes: a successful completion
body, an `HTTPError` with a status code and response body, or a `URLError`
(transport-level connection failure). -/
inductive AttemptResult where
  | success (body : String)
  | httpError (code : Nat) (body : String)
  | urlError
deriving Repr, DecidableEq

/-- How `call_openrouter` ends: the stripped completion text, the raised
`RuntimeError` for an HTTP status (with the body truncated to 400
characters), the raised `RuntimeError` for a connection error, or the
post-loop `RuntimeError("OpenRouter request failed after retries")`. -/
inductive CallOutcome where
  | ok (body : String)
  | httpFailure (code : Nat) (body : String)
  | connFailure
  | exhausted
deriving Repr, DecidableEq

/-- The retry test of the batch flow (`generate_daily_blogs.py`):
`exc.code == 429` or `exc.code >= 500`. -/
def retryableBatch (code : Nat) : Bool :=
  code == 429 || 500 ≤ code

/-- The retry test of the single-date flow (`publish_yesterday_git_blog.py`):
`exc.code in (429, 500, 502, 503, 504)`. -/
def retryablePublish (code : Nat) : Bool :=
  code == 429 || code == 500 || code == 502 || code == 503 || code == 504

/-- The `for attempt in range(6)` loop of `call_openrouter`: a success
returns the stripped body; a retryable HTTP error or a connection error
sleeps and retries while `attempt < 5`, otherwise the per-attempt error is
raised; past the loop (`remaining = 0`, unreachable from 6) the distinct
terminal error is raised.  `respond` is the oracle of per-attempt results;
the second component counts the attempts made. -/
def callLoop (retryable : Nat → Bool) (respond : Nat → AttemptResult) :
    Nat → Nat → CallOutcome × Nat
  | 0, attempt => (.exhausted, attempt)
  | remaining + 1, attempt =>
    match respond attempt with
    | .success body => (.ok (pyStrip body), attempt + 1)
    | .httpError code body =>
      if retryable code ∧ attempt < 5 then callLoop retryable respond remaining (attempt + 1)
      else (.httpFailure code (String.mk (body.toList.take 400)), attempt + 1)
    | .urlError =>
      if attempt < 5 then callLoop retryable respond remaining (attempt + 1)
      else (.connFailure, attempt + 1)

/-- `call_openrouter`: the six-round loop started at attempt 0. -/
def call_openrouter (retryable : Nat → Bool) (respond : Nat → AttemptResult) :
    CallOutcome × Nat :=
  callLoop retryable respond 6 0

/-- Whether an attempt result is a retryable failure under a retry test. -/
def retryableFailure (retryable : Nat → Bool) : AttemptResult → Bool
  | .success _ => false
  | .httpError code _ => retryable code
  | .urlError => true

/-- The error `call_openrouter` raises for a failing attempt it does not
retry. -/
def perAttemptFailure : AttemptResult → CallOutcome
  | .success body => .ok (pyStrip body)
  | .httpError code body => .httpFailure code (String.mk (body.toList.take 400))
  | .urlError => .connFailure

/-- A retryable failing attempt before the last round continues the loop at
the next attempt. -/
theorem callLoop_step (re : Nat → Bool) (r : Nat → AttemptResult) (rem att : Nat)
    (hatt : att < 5) (hr : retryableFailure re (r att) = true) :
    callLoop re r (rem + 1) att = callLoop re r rem (att + 1) := by
  cases hra : r att with
  | success body =>
    rw [hra] at hr
    simp [retryableFailure] at hr
  | httpError code body =>
    rw [hra] at hr
    simp only [retryableFailure] at hr
    simp [callLoop, hra, hr, hatt]
  | urlError =>
    simp [callLoop, hra, hatt]

/-- On the last round (attempt 5) any result ends the loop with the
per-attempt outcome — the post-loop terminal error is never reached. -/
theorem callLoop_last (re : Nat → Bool) (r : Nat → AttemptResult) (rem att : Nat)
    (hatt : ¬ (att < 5)) :
    callLoop re r (rem + 1) att = (perAttemptFailure (r att), att + 1) := by
  cases hra : r att with
  | success body => simp [callLoop, hra, perAttemptFailure]
  | httpError code body => simp [callLoop, hra, perAttemptFailure, hatt]
  | urlError => simp [callLoop, hra, perAttemptFailure, hatt]

/-- Claim C2, counterexample: fed six consecutive too-many-requests
failures, the batch-flow client does make exactly 6 attempts, but the error
it then raises is the same per-attempt `OpenRouter HTTP {code}: {body}`
failure it raises for a single non-retryable response (here a 400 after one
attempt) — not the distinct post-loop `failed after retries` error, which is
unreachable. -/
theorem c2_counterexample :
    call_openrouter retryableBatch (fun _ => .httpError 429 "rate limited")
      = (.httpFailure 429 "rate limited", 6)
    ∧ (CallOutcome.httpFailure 429 "rate limited") ≠ CallOutcome.exhausted
    ∧ call_openrouter retryableBatch (fun _ => .httpError 400 "bad request")
      = (.httpFailure 400 "bad request", 1) := by
  refine ⟨by decide, by decide, by decide⟩

/-- Claim C2 as amended: fed a sequence of 6 consecutive retryable failures
(under either flow's retry test), the Generation Client makes exactly 6
attempts — not fewer, not more — and then raises the 6th attempt's
per-attempt failure; the distinct post-loop terminal error is unreachable,
so the raised error is not distinct from per-attempt failures. -/
theorem c2_retry_bound (re : Nat → Bool) (respond : Nat → AttemptResult)
    (h : ∀ i, i < 6 → retryableFailure re (respond i) = true) :
    call_openrouter re respond = (perAttemptFailure (respond 5), 6)
    ∧ perAttemptFailure (respond 5) ≠ CallOutcome.exhausted := by
  constructor
  · unfold call_openrouter
    rw [callLoop_step re respond 5 0 (by omega) (h 0 (by omega))]
    rw [callLoop_step re respond 4 1 (by omega) (h 1 (by omega))]
    rw [callLoop_step re respond 3 2 (by omega) (h 2 (by omega))]
    rw [callLoop_step re respond 2 3 (by omega) (h 3 (by omega))]
    rw [callLoop_step re respond 1 4 (by omega) (h 4 (by omega))]
    exact callLoop_last re respond 0 5 (by omega)
  · cases respond 5 <;> simp [perAttemptFailure]

/-- Witness for C2 (amended) at six consecutive connection failures under
the single-date flow's retry test. -/
theorem c2_witness :
    call_openrouter retryablePublish (fun _ => .urlError)
      = (perAttemptFailure .urlError, 6)
    ∧ perAttemptFailure .urlError ≠ CallOutcome.exhausted :=
  c2_retry_bound retryablePublish (fun _ => .urlError) (fun _ _ => rfl)

/-- Claim C4, counterexample: status 501 is in the 5xx class, yet on its
first attempt (five attempts remaining) the single-date flow's client raises
immediately instead of retrying — its retry test lists only 429, 500, 502,
503 and 504 — while the batch flow retries it. -/
theorem c4_counterexample :
    call_openrouter retryablePublish (fun _ => .httpError 501 "err")
      = (.httpFailure 501 "err", 1)
    ∧ retryablePublish 501 = false
    ∧ retryableBatch 501 = true := by
  refine ⟨by decide, by decide, by decide⟩

/-- Claim C4 as amended: while attempts remain, an HTTP error is treated as
retryable (the loop continues with the next attempt instead of raising) in
the batch flow for status 429 and the whole 5xx-and-above class
(`code >= 500`), and in the single-date flow exactly for the statuses 429,
500, 502, 503 and 504. -/
theorem c4_retry_triggers (respond : Nat → AttemptResult) (rem attempt code : Nat)
    (body : String)
    (h1 : attempt < 5) (h2 : respond attempt = .httpError code body) :
    ((code = 429 ∨ 500 ≤ code) →
      callLoop retryableBatch respond (rem + 1) attempt
        = callLoop retryableBatch respond rem (attempt + 1))
    ∧ (code ∈ ([429, 500, 502, 503, 504] : List Nat) →
      callLoop retryablePublish respond (rem + 1) attempt
        = callLoop retryablePublish respond rem (attempt + 1)) := by
  constructor
  · intro hcode
    apply callLoop_step _ respond rem attempt h1
    rw [h2]
    simp only [retryableFailure, retryableBatch]
    rcases hcode with hc | hc
    · subst hc; rfl
    · simp [hc]
  · intro hcode
    apply callLoop_step _ respond rem attempt h1
    rw [h2]
    simp only [retryableFailure, retryablePublish]
    fin_cases hcode <;> rfl

/-- Witness for C4 (amended) at status 503, attempt 0, in both flows. -/
theorem c4_witness :
    callLoop retryableBatch (fun _ => .httpError 503 "unavailable") 6 0
      = callLoop retryableBatch (fun _ => .httpError 503 "unavailable") 5 1
    ∧ callLoop retryablePublish (fun _ => .httpError 503 "unavailable") 6 0
      = callLoop retryablePublish (fun _ => .httpError 503 "unavailable") 5 1 :=
  ⟨(c4_retry_triggers (fun _ => .httpError 503 "unavailable") 5 0 503 "unavailable"
      (by omega) rfl).1 (Or.inr (by omega)),
    (c4_retry_triggers (fun _ => .httpError 503 "unavailable") 5 0 503 "unavailable"
      (by omega) rfl).2 (by decide)⟩

mutual

/-- Python `str(·)` over the decoded JSON fragment: strings pass through,
scalars print Python-style; containers render in Python's list/dict style
(element `repr` approximated without inner-quote escaping — the flows only
ever feed scalars or strings here). -/
def pyStrOf : Json → String
  | .str s => s
  | .num n => toString n
  | .bool b => cond b "True" "False"
  | .null => "None"
  | .arr l => "[" ++ pyReprElems l ++ "]"
  | .obj l => "\x7b" ++ pyReprPairs l ++ "\x7d"

/-- Comma-joined `repr` of list elements, as `str(list)` shows them. -/
def pyReprElems : List Json → String
  | [] => ""
  | [x] => pyReprOf x
  | x :: xs => pyReprOf x ++ ", " ++ pyReprElems xs

/-- Comma-joined `repr` of dict items, as `str(dict)` shows them. -/
def pyReprPairs : List (String × Json) → String
  | [] => ""
  | [(k, v)] => "'" ++ k ++ "': " ++ pyReprOf v
  | (k, v) :: xs => "'" ++ k ++ "': " ++ pyReprOf v ++ ", " ++ pyReprPairs xs

/-- Python `repr(·)` over the fragment (strings single-quoted). -/
def pyReprOf : Json → String
  | .str s => "'" ++ s ++ "'"
  | .num n => toString n
  | .bool b => cond b "True" "False"
  | .null => "None"
  | .arr l => "[" ++ pyReprElems l ++ "]"
  | .obj l => "\x7b" ++ pyReprPairs l ++ "\x7d"

end

/-- Python truthiness of a decoded JSON value. -/
def truthy : Json → Bool
  | .str s => !(s == "")
  | .num n => !(n == 0)
  | .bool b => b
  | .null => false
  | .arr l => !l.isEmpty
  | .obj l => !l.isEmpty

/-- Dict lookup on a decoded object (`none` for a missing key or a non-dict
value); on duplicate keys the last occurrence wins, as when `json.loads`
builds a `dict`. -/
def objLookup : Json → String → Option Json
  | .obj members, k => (members.reverse.find? (fun p => p.1 == k)).map Prod.snd
  | _, _ => none

/-- Python `parsed.get(key)`: `None` when missing. -/
def objGet (j : Json) (key : String) : Json :=
  (objLookup j key).getD Json.null

/-- Python `parsed.get(key, "")`: the empty string when missing. -/
def objGetS (j : Json) (key : String) : Json :=
  (objLookup j key).getD (Json.str "")

/-- The fixed fallback tag set of the batch flow. -/
def batchFallbackTags : List String := ["engineering", "software", "build-in-public"]

/-- The fixed fallback tag set of the single-date flow. -/
def publishFallbackTags : List String := ["engineering", "git", "build-in-public"]

/-- `if len(tags) < 3: tags = (tags + fallback)[:3]`. -/
def padTags (fallback tags : List String) : List String :=
  if tags.length < 3 then (tags ++ fallback).take 3 else tags

/-- The tag normalization both flows apply to the decoded `tags` value:
`[str(t).strip() for t in tags if str(t).strip()][:6]`, then pad with the
flow's fallback tags to 3 when fewer than 3 remain. -/
def normalizeTagList (fallback : List String) (raw : List Json) : List String :=
  padTags fallback (((raw.map (fun t => pyStrip (pyStrOf t))).filter (fun t => t ≠ "")).take 6)

/-- The `tags = parsed.get("tags") or []` / `isinstance(tags, list)` steps
both flows share: any non-list (or missing, or falsy) value becomes `[]`. -/
def tagsOf (parsed : Json) : List Json :=
  match objGet parsed "tags" with
  | .arr l => l
  | _ => []

theorem c7_tag_normalization (fallback : List String) (raw : List Json)
    (t : String) (seven : List String)
    (hfb : fallback.length = 3)
    (ht1 : pyStrip t = t) (ht2 : t ≠ "")
    (h7a : seven.length = 7)
    (h7b : ∀ x ∈ seven, pyStrip x = x ∧ x ≠ "") :
    (3 ≤ (normalizeTagList fallback raw).length
      ∧ (normalizeTagList fallback raw).length ≤ 6)
    ∧ normalizeTagList fallback [] = fallback
    ∧ normalizeTagList fallback [Json.str t] = t :: fallback.take 2
    ∧ normalizeTagList fallback (seven.map Json.str) = seven.take 6 := by
  refine ⟨?_, ?_, ?_, ?_⟩
  · unfold normalizeTagList padTags
    set tags := ((raw.map (fun x => pyStrip (pyStrOf x))).filter (fun x => x ≠ "")).take 6
      with htags
    have hle : tags.length ≤ 6 := by
      rw [htags, List.length_take]
      omega
    by_cases hlt : tags.length < 3
    · rw [if_pos hlt]
      have h3 : ((tags ++ fallback).take 3).length = 3 := by
        rw [List.length_take, List.length_append, hfb]
        omega
      omega
    · rw [if_neg hlt]
      omega
  · show padTags fallback [] = fallback
    unfold padTags
    rw [if_pos (by decide), List.nil_append, ← hfb, List.take_length]
  · show padTags fallback (([pyStrip t].filter (fun x => x ≠ "")).take 6)
      = t :: fallback.take 2
    rw [ht1]
    rw [show ([t].filter (fun x => x ≠ "")) = [t] from by simp [List.filter, ht2]]
    unfold padTags
    rw [show (([t] : List String).take 6) = [t] from rfl]
    rw [if_pos (by simp)]
    rfl
  · show padTags fallback
        ((((seven.map Json.str).map (fun x => pyStrip (pyStrOf x))).filter
          (fun x => x ≠ "")).take 6)
      = seven.take 6
    have hmap : (seven.map Json.str).map (fun x => pyStrip (pyStrOf x)) = seven := by
      rw [List.map_map]
      have : seven.map ((fun x => pyStrip (pyStrOf x)) ∘ Json.str) = seven.map id :=
        List.map_congr_left (fun x hx => (h7b x hx).1)
      rw [this, List.map_id]
    rw [hmap]
    have hfil : seven.filter (fun x => x ≠ "") = seven :=
      List.filter_eq_self.mpr (fun x hx => by simpa using (h7b x hx).2)
    rw [hfil]
    unfold padTags
    rw [if_neg (by rw [List.length_take]; omega)]

/-- Witness for C7 with the batch flow's fallback set at concrete tag
lists of 0, 1 and 7 tags. -/
theorem c7_witness :
    (3 ≤ (normalizeTagList batchFallbackTags [Json.num 1]).length
      ∧ (normalizeTagList batchFallbackTags [Json.num 1]).length ≤ 6)
    ∧ normalizeTagList batchFallbackTags [] = batchFallbackTags
    ∧ normalizeTagList batchFallbackTags [Json.str "rust"]
      = "rust" :: batchFallbackTags.take 2
    ∧ normalizeTagList batchFallbackTags
        ((["t1", "t2", "t3", "t4", "t5", "t6", "t7"].map Json.str))
      = ["t1", "t2", "t3", "t4", "t5", "t6", "t7"].take 6 :=
  c7_tag_normalization batchFallbackTags [Json.num 1] "rust"
    ["t1", "t2", "t3", "t4", "t5", "t6", "t7"]
    rfl (by decide) (by decide) rfl
    (by intro x hx; fin_cases hx <;> exact ⟨rfl, by decide⟩)

/-- `(parsed.get(key) or "").strip()` of the batch flow: the stripped string
value, `""` when the key is missing or its value falsy, and `none` modelling
the `AttributeError` Python raises when the value is truthy but not a
string. -/
def pyOrEmptyStrip (parsed : Json) (key : String) : Option String :=
  match objLookup parsed key with
  | none => some ""
  | some v =>
    match v with
    | .str s => some (pyStrip s)
    | _ => if truthy v then none else some ""

/-- `str(parsed.get(key, "")).strip()` of the single-date flow: `str(·)` is
total, so this never raises. -/
def pyStrStrip (parsed : Json) (key : String) : String :=
  pyStrip (pyStrOf (objGetS parsed key))

/-- `generate_one_post` of the batch flow over an explicit per-day
filesystem and network oracle.  The first component is the list of document
files existing for the day afterwards (`existingForDay` beforehand); the
second is the unit's outcome — `Except.error` models the exception the
orchestrator catches and counts as a failed day.  Deleting the existing
files under `--overwrite` happens first, before the generation request, as
in the source. -/
def generate_one_post (overwrite : Bool) (existingForDay : List String)
    (respond : Nat → AttemptResult) (day author : String) :
    List String × Except String (String × String) :=
  let files := if overwrite ∧ existingForDay ≠ [] then [] else existingForDay
  match (call_openrouter retryableBatch respond).1 with
  | .ok raw =>
    match parse_json_response raw with
    | none => (files, .error "json.JSONDecodeError")
    | some parsed =>
      match pyOrEmptyStrip parsed "title", pyOrEmptyStrip parsed "excerpt",
          pyOrEmptyStrip parsed "content" with
      | some title, some excerpt, some content =>
        if title = "" ∨ content = "" then
          (files, .error "Model returned missing title/content")
        else
          (files ++ [day ++ "-" ++ slugify title ++ ".mdx"],
            .ok (day ++ "-" ++ slugify title ++ ".mdx",
              write_mdx day title (if excerpt = "" then title else excerpt) author
                (normalizeTagList batchFallbackTags (tagsOf parsed)) content))
      | _, _, _ => (files, .error "AttributeError")
  | .httpFailure code body =>
    (files, .error ("OpenRouter HTTP " ++ toString code ++ ": " ++ body))
  | .connFailure => (files, .error "OpenRouter connection error")
  | .exhausted => (files, .error "OpenRouter request failed after retries")

/-- The `Commit` dataclass of the single-date flow. -/
structure Commit where
  sha : String
  date : String
  message : String
  project : String
  repo_path : String
deriving Repr, DecidableEq

/-- How a run of the single-date flow's `main` ends: a clean return with its
exit code, whether a generation request was made, and the document file
written (if any); or an uncaught exception (`failed`), with whether the
generation request had been made. -/
inductive PublishResult where
  | done (exit : Nat) (generated : Bool) (wrote : Option (String × String))
  | failed (generated : Bool) (msg : String)
deriving Repr, DecidableEq

/-- The fallback title of the single-date flow (the source's literal
mojibake bytes reproduced). -/
def publishFallbackTitle (targetDate : String) : String :=
  "Daily engineering recap â€” " ++ targetDate

/-- `main` of `publish_yesterday_git_blog.py` from the point the target
date is resolved, over explicit inputs: the existing post for the date (if
any), the flags, the aggregated commits, the API-key availability and the
network oracle.  Publishing (git add/commit/push) is out of the modelled
claims and is taken as succeeding. -/
def publishMain (existing : Option String) (overwrite dryRun hasApiKey : Bool)
    (commits : List Commit) (respond : Nat → AttemptResult)
    (author targetDate : String) : PublishResult :=
  if existing.isSome ∧ ¬ overwrite then .done 0 false none
  else if commits = [] then .done 0 false none
  else if dryRun then .done 0 false none
  else if ¬ hasApiKey then
    .failed false "OPENROUTER_API_KEY not found in environment or known .env files"
  else
    match (call_openrouter retryablePublish respond).1 with
    | .ok raw =>
      match parse_json_response raw with
      | none => .failed true "json.JSONDecodeError"
      | some parsed =>
        let title :=
          if pyStrStrip parsed "title" = "" then publishFallbackTitle targetDate
          else pyStrStrip parsed "title"
        let excerpt :=
          if pyStrStrip parsed "excerpt" = "" then title else pyStrStrip parsed "excerpt"
        let content := pyStrStrip parsed "content"
        if content = "" then .failed true "Model returned empty content"
        else
          .done 0 true (some (targetDate ++ "-" ++ slugify title ++ ".mdx",
            write_mdx targetDate title excerpt author
              (normalizeTagList publishFallbackTags (tagsOf parsed)) content))
    | .httpFailure code body =>
      .failed true ("OpenRouter HTTP " ++ toString code ++ ": " ++ body)
    | .connFailure => .failed true "OpenRouter connection error"
    | .exhausted => .failed true "OpenRouter request failed after retries"

/-- Claim C8: a single-date run whose target date has zero commits after
aggregation makes no generation request, creates no document, and exits
with status 0 — whatever the flags, the existing post and the network
oracle. -/
theorem c8_zero_commits (existing : Option String) (overwrite dryRun hasApiKey : Bool)
    (respond : Nat → AttemptResult) (author targetDate : String) :
    publishMain existing overwrite dryRun hasApiKey [] respond author targetDate
      = .done 0 false none := by
  unfold publishMain
  by_cases h : existing.isSome ∧ ¬ overwrite
  · rw [if_pos h]
  · rw [if_neg h, if_pos rfl]

/-- A failing unit of the batch flow writes no document: the files remaining
for the day are exactly what the pre-call deletion step left. -/
theorem gen_error_keeps_files (ow : Bool) (ex : List String)
    (respond : Nat → AttemptResult) (day author : String) (e : String)
    (hfail : (generate_one_post ow ex respond day author).2 = .error e) :
    (generate_one_post ow ex respond day author).1
      = (if ow ∧ ex ≠ [] then [] else ex) := by
  unfold generate_one_post at hfail ⊢
  repeat' split at hfail
  all_goals simp_all

/-- Claim C10: in the batch flow with `--overwrite`, the existing documents
for a date are deleted before the generation request is sent — the run is
indistinguishable from one starting with no documents for the date — so
when the generation call, decoding or validation then fails, the date is
left with no document on disk. -/
theorem c10_overwrite_deletes_first (ex : List String) (respond : Nat → AttemptResult)
    (day author : String) (e : String)
    (hex : ex ≠ [])
    (hfail : (generate_one_post true ex respond day author).2 = .error e) :
    (generate_one_post true ex respond day author).1 = []
    ∧ generate_one_post true ex respond day author
      = generate_one_post true [] respond day author := by
  constructor
  · rw [gen_error_keeps_files true ex respond day author e hfail]
    simp [hex]
  · simp [generate_one_post, hex]

/-- Witness for C10: with an existing post and a non-retryable HTTP 400
reply, the overwritten date ends with no document and the prior file gone. -/
theorem c10_witness :
    (generate_one_post true ["2026-02-19-old-post.mdx"]
        (fun _ => .httpError 400 "bad request") "2026-02-19" "Ryan Dashwood").1 = []
    ∧ generate_one_post true ["2026-02-19-old-post.mdx"]
        (fun _ => .httpError 400 "bad request") "2026-02-19" "Ryan Dashwood"
      = generate_one_post true [] (fun _ => .httpError 400 "bad request")
        "2026-02-19" "Ryan Dashwood" :=
  c10_overwrite_deletes_first ["2026-02-19-old-post.mdx"]
    (fun _ => .httpError 400 "bad request") "2026-02-19" "Ryan Dashwood"
    "OpenRouter HTTP 400: bad request" (by decide) rfl

/-- Claim C1, counterexample: in the single-date publish flow a decoded
reply missing `title` IS persisted — the flow substitutes its fixed fallback
title and writes the document, ending with exit 0 — so the claim's
both-flows invariant fails. -/
theorem c1_counterexample :
    publishMain none false false true [⟨"a1b2c3", "2026-02-19 10:00:00 -0600", "fix build",
        "my-portfolio", "/home/ryan/sites/my-portfolio"⟩]
      (fun _ => .success "\x7b\"content\": \"hello world\"\x7d") "Ryan Dashwood" "2026-02-19"
      = .done 0 true (some ("2026-02-19-" ++ slugify (publishFallbackTitle "2026-02-19") ++ ".mdx",
          write_mdx "2026-02-19" (publishFallbackTitle "2026-02-19")
            (publishFallbackTitle "2026-02-19") "Ryan Dashwood"
            ["engineering", "git", "build-in-public"] "hello world")) := by rfl

/-- Claim C1 as amended: in the batch flow a decoded reply missing `title`
or missing `content` is never persisted — no document file appears for the
date and the unit fails; in the publish flow this holds for missing
`content`, while a missing `title` is replaced by the fixed fallback title
(see the counterexample). -/
theorem c1_missing_fields (ow : Bool) (ex : List String) (respond1 : Nat → AttemptResult)
    (raw1 : String) (parsed1 : Json) (day author : String)
    (h1 : (call_openrouter retryableBatch respond1).1 = .ok raw1)
    (h2 : parse_json_response raw1 = some parsed1)
    (h3 : objLookup parsed1 "title" = none ∨ objLookup parsed1 "content" = none)
    (existing2 : Option String) (ow2 dr2 hk2 : Bool)
    (commits2 : List Commit) (respond2 : Nat → AttemptResult)
    (raw2 : String) (parsed2 : Json) (author2 date2 : String)
    (h4 : ¬ (existing2.isSome ∧ ¬ ow2)) (h5 : commits2 ≠ []) (h6 : dr2 = false)
    (h7 : hk2 = true)
    (h8 : (call_openrouter retryablePublish respond2).1 = .ok raw2)
    (h9 : parse_json_response raw2 = some parsed2)
    (h10 : objLookup parsed2 "content" = none) :
    ((∃ e, (generate_one_post ow ex respond1 day author).2 = .error e)
      ∧ (generate_one_post ow ex respond1 day author).1
        = (if ow ∧ ex ≠ [] then [] else ex))
    ∧ publishMain existing2 ow2 dr2 hk2 commits2 respond2 author2 date2
      = .failed true "Model returned empty content" := by
  constructor
  · have hbatch : ∃ e, (generate_one_post ow ex respond1 day author).2 = .error e := by
      simp only [generate_one_post, h1, h2]
      rcases h3 with ht | hc
      · have htt : pyOrEmptyStrip parsed1 "title" = some "" := by
          simp [pyOrEmptyStrip, ht]
        rw [htt]
        cases he : pyOrEmptyStrip parsed1 "excerpt" <;>
          cases hcc : pyOrEmptyStrip parsed1 "content" <;>
          simp
      · have hct : pyOrEmptyStrip parsed1 "content" = some "" := by
          simp [pyOrEmptyStrip, hc]
        rw [hct]
        cases ht2 : pyOrEmptyStrip parsed1 "title" <;>
          cases he : pyOrEmptyStrip parsed1 "excerpt" <;>
          simp
    refine ⟨hbatch, ?_⟩
    obtain ⟨e, he⟩ := hbatch
    exact gen_error_keeps_files ow ex respond1 day author e he
  · subst h6
    subst h7
    have hcont : pyStrStrip parsed2 "content" = "" := by
      unfold pyStrStrip objGetS
      rw [h10]
      rfl
    simp only [publishMain, if_neg h4, if_neg h5, h8, h9, hcont]
    simp

/-- Witness for C1 (amended): a reply with neither title nor content fails
the batch unit leaving the day's files untouched, and a title-only reply
fails the publish run. -/
theorem c1_witness :
    ((∃ e, (generate_one_post false []
        (fun _ => .success "\x7b\"excerpt\": \"only an excerpt\"\x7d")
        "2026-02-19" "Ryan Dashwood").2 = .error e)
      ∧ (generate_one_post false []
          (fun _ => .success "\x7b\"excerpt\": \"only an excerpt\"\x7d")
          "2026-02-19" "Ryan Dashwood").1
        = (if false ∧ ([] : List String) ≠ [] then [] else []))
    ∧ publishMain none false false true
        [⟨"sha1", "2026-02-19 09:00:00 -0600", "msg", "proj", "/tmp/repo"⟩]
        (fun _ => .success "\x7b\"title\": \"A Title\"\x7d") "Ryan Dashwood" "2026-02-19"
      = .failed true "Model returned empty content" :=
  c1_missing_fields false [] (fun _ => .success "\x7b\"excerpt\": \"only an excerpt\"\x7d")
    "\x7b\"excerpt\": \"only an excerpt\"\x7d"
    (Json.obj [("excerpt", Json.str "only an excerpt")]) "2026-02-19" "Ryan Dashwood"
    rfl rfl (Or.inl rfl)
    none false false true [⟨"sha1", "2026-02-19 09:00:00 -0600", "msg", "proj", "/tmp/repo"⟩]
    (fun _ => .success "\x7b\"title\": \"A Title\"\x7d") "\x7b\"title\": \"A Title\"\x7d"
    (Json.obj [("title", Json.str "A Title")]) "Ryan Dashwood" "2026-02-19"
    (by simp) (by decide) rfl rfl rfl rfl rfl

/-- Insert a `(day, day_data)` pair into a list sorted by day descending. -/
def insertByDayDesc (p : String × Json) : List (String × Json) → List (String × Json)
  | [] => [p]
  | q :: qs => if q.1 < p.1 then p :: q :: qs else q :: insertByDayDesc p qs

/-- `sorted(daily.keys(), reverse=True)` lifted to key-value pairs:
insertion sort by day, newest first (ties keep insertion order; the feed's
keys are distinct). -/
def sortByDayDesc : List (String × Json) → List (String × Json)
  | [] => []
  | p :: ps => insertByDayDesc p (sortByDayDesc ps)

/-- The per-day test of the batch flow's target loop: inside the requested
inclusive bounds (an empty bound string is falsy in Python, meaning
unbounded), no truthy `error` marker, a truthy `ideas` value, and no
existing post for the day unless `--overwrite`. -/
def targetPred (fromDate toDate : String) (overwrite : Bool) (existing : List String)
    (p : String × Json) : Bool :=
  (fromDate == "" || !(decide (p.1 < fromDate)))
  && (toDate == "" || !(decide (toDate < p.1)))
  && !(truthy (objGet p.2 "error"))
  && truthy (objGet p.2 "ideas")
  && (!(existing.contains p.1) || overwrite)

/-- The target list before the optional cap: days sorted newest first,
then filtered. -/
def selectTargetsNoCap (daily : List (String × Json)) (fromDate toDate : String)
    (overwrite : Bool) (existing : List String) : List (String × Json) :=
  (sortByDayDesc daily).filter (targetPred fromDate toDate overwrite existing)

/-- The full Target Selector of the batch flow's `main`, `--limit`
included: `if args.limit and args.limit > 0: targets = targets[:limit]`. -/
def selectTargets (daily : List (String × Json)) (fromDate toDate : String)
    (overwrite : Bool) (existing : List String) (limit : Int) : List (String × Json) :=
  if limit ≠ 0 ∧ 0 < limit then
    (selectTargetsNoCap daily fromDate toDate overwrite existing).take limit.toNat
  else selectTargetsNoCap daily fromDate toDate overwrite existing

theorem insertByDayDesc_perm (p : String × Json) (l : List (String × Json)) :
    List.Perm (insertByDayDesc p l) (p :: l) := by
  induction l with
  | nil => exact List.Perm.refl _
  | cons q qs ih =>
    by_cases h : q.1 < p.1
    · simp [insertByDayDesc, h]
    · simp only [insertByDayDesc, if_neg h]
      exact List.Perm.trans (List.Perm.cons q ih) (List.Perm.swap p q qs)

theorem sortByDayDesc_perm (l : List (String × Json)) :
    List.Perm (sortByDayDesc l) l := by
  induction l with
  | nil => exact List.Perm.refl _
  | cons p ps ih =>
    exact List.Perm.trans (insertByDayDesc_perm p (sortByDayDesc ps)) (List.Perm.cons p ih)

theorem mem_insertByDayDesc (x p : String × Json) (l : List (String × Json)) :
    x ∈ insertByDayDesc p l ↔ x = p ∨ x ∈ l := by
  rw [(insertByDayDesc_perm p l).mem_iff]
  simp

theorem insertByDayDesc_sorted (p : String × Json) (l : List (String × Json))
    (h : List.Pairwise (fun a b => b.1 ≤ a.1) l) :
    List.Pairwise (fun a b => b.1 ≤ a.1) (insertByDayDesc p l) := by
  induction l with
  | nil => simp [insertByDayDesc]
  | cons q qs ih =>
    rcases List.pairwise_cons.mp h with ⟨hq, hqs⟩
    by_cases hlt : q.1 < p.1
    · simp only [insertByDayDesc, if_pos hlt]
      refine List.pairwise_cons.mpr ⟨?_, h⟩
      intro x hx
      rcases List.mem_cons.mp hx with hxq | hxqs
      · subst hxq; exact le_of_lt hlt
      · exact le_trans (hq x hxqs) (le_of_lt hlt)
    · simp only [insertByDayDesc, if_neg hlt]
      refine List.pairwise_cons.mpr ⟨?_, ih hqs⟩
      intro x hx
      rcases (mem_insertByDayDesc x p qs).mp hx with hxp | hxqs
      · subst hxp; exact not_lt.mp hlt
      · exact hq x hxqs

theorem sortByDayDesc_sorted (l : List (String × Json)) :
    List.Pairwise (fun a b => b.1 ≤ a.1) (sortByDayDesc l) := by
  induction l with
  | nil => simp [sortByDayDesc]
  | cons p ps ih => exact insertByDayDesc_sorted p (sortByDayDesc ps) ih

/-- Claim C6: the Target Selector's work list contains exactly the records
within the inclusive bounds that carry no error marker, have a truthy (for
the feed's lists: non-empty) idea list, and either have no existing document
for their date or overwrite was requested; the list is ordered newest date
first, and the optional cap truncates it only after this ordering. -/
theorem c6_target_selector (daily : List (String × Json)) (fromDate toDate : String)
    (overwrite : Bool) (existing : List String) (limit : Int)
    (hlim : 0 < limit) :
    (∀ p : String × Json,
      p ∈ selectTargetsNoCap daily fromDate toDate overwrite existing
        ↔ p ∈ daily
          ∧ (fromDate = "" ∨ ¬ p.1 < fromDate)
          ∧ (toDate = "" ∨ ¬ toDate < p.1)
          ∧ truthy (objGet p.2 "error") = false
          ∧ truthy (objGet p.2 "ideas") = true
          ∧ (p.1 ∉ existing ∨ overwrite = true))
    ∧ List.Pairwise (fun a b => b.1 ≤ a.1)
        (selectTargetsNoCap daily fromDate toDate overwrite existing)
    ∧ selectTargets daily fromDate toDate overwrite existing limit
      = (selectTargetsNoCap daily fromDate toDate overwrite existing).take limit.toNat := by
  refine ⟨?_, ?_, ?_⟩
  · intro p
    unfold selectTargetsNoCap
    rw [List.mem_filter, (sortByDayDesc_perm daily).mem_iff]
    simp [targetPred, List.contains]
    tauto
  · exact List.Pairwise.filter _ (sortByDayDesc_sorted daily)
  · unfold selectTargets
    rw [if_pos ⟨by omega, hlim⟩]

/-- Witness for C6 at a concrete three-day feed (one day with an error
marker, one already published) with `--limit 1`. -/
theorem c6_witness :
    (("2026-02-20", Json.obj [("ideas", Json.arr [Json.str "i3"])])
        ∈ selectTargetsNoCap
          [("2026-02-18", Json.obj [("ideas", Json.arr [Json.str "i1"])]),
            ("2026-02-19", Json.obj [("error", Json.str "boom"),
              ("ideas", Json.arr [Json.str "i2"])]),
            ("2026-02-20", Json.obj [("ideas", Json.arr [Json.str "i3"])])]
          "" "" false ["2026-02-18"]
      ↔ ("2026-02-20", Json.obj [("ideas", Json.arr [Json.str "i3"])])
          ∈ [("2026-02-18", Json.obj [("ideas", Json.arr [Json.str "i1"])]),
              ("2026-02-19", Json.obj [("error", Json.str "boom"),
                ("ideas", Json.arr [Json.str "i2"])]),
              ("2026-02-20", Json.obj [("ideas", Json.arr [Json.str "i3"])])]
        ∧ (("" : String) = "" ∨ ¬ ("2026-02-20" : String) < "")
        ∧ (("" : String) = "" ∨ ¬ ("" : String) < "2026-02-20")
        ∧ truthy (objGet (Json.obj [("ideas", Json.arr [Json.str "i3"])]) "error") = false
        ∧ truthy (objGet (Json.obj [("ideas", Json.arr [Json.str "i3"])]) "ideas") = true
        ∧ (("2026-02-20" : String) ∉ ["2026-02-18"] ∨ false = true))
    ∧ List.Pairwise (fun a b => b.1 ≤ a.1)
        (selectTargetsNoCap
          [("2026-02-18", Json.obj [("ideas", Json.arr [Json.str "i1"])]),
            ("2026-02-19", Json.obj [("error", Json.str "boom"),
              ("ideas", Json.arr [Json.str "i2"])]),
            ("2026-02-20", Json.obj [("ideas", Json.arr [Json.str "i3"])])]
          "" "" false ["2026-02-18"])
    ∧ selectTargets
        [("2026-02-18", Json.obj [("ideas", Json.arr [Json.str "i1"])]),
          ("2026-02-19", Json.obj [("error", Json.str "boom"),
            ("ideas", Json.arr [Json.str "i2"])]),
          ("2026-02-20", Json.obj [("ideas", Json.arr [Json.str "i3"])])]
        "" "" false ["2026-02-18"] 1
      = (selectTargetsNoCap
          [("2026-02-18", Json.obj [("ideas", Json.arr [Json.str "i1"])]),
            ("2026-02-19", Json.obj [("error", Json.str "boom"),
              ("ideas", Json.arr [Json.str "i2"])]),
            ("2026-02-20", Json.obj [("ideas", Json.arr [Json.str "i3"])])]
          "" "" false ["2026-02-18"]).take (1 : Int).toNat :=
  ⟨(c6_target_selector
      [("2026-02-18", Json.obj [("ideas", Json.arr [Json.str "i1"])]),
        ("2026-02-19", Json.obj [("error", Json.str "boom"),
          ("ideas", Json.arr [Json.str "i2"])]),
        ("2026-02-20", Json.obj [("ideas", Json.arr [Json.str "i3"])])]
      "" "" false ["2026-02-18"] 1 (by decide)).1
      ("2026-02-20", Json.obj [("ideas", Json.arr [Json.str "i3"])]),
    (c6_target_selector
      [("2026-02-18", Json.obj [("ideas", Json.arr [Json.str "i1"])]),
        ("2026-02-19", Json.obj [("error", Json.str "boom"),
          ("ideas", Json.arr [Json.str "i2"])]),
        ("2026-02-20", Json.obj [("ideas", Json.arr [Json.str "i3"])])]
      "" "" false ["2026-02-18"] 1 (by decide)).2.1,
    (c6_target_selector
      [("2026-02-18", Json.obj [("ideas", Json.arr [Json.str "i1"])]),
        ("2026-02-19", Json.obj [("error", Json.str "boom"),
          ("ideas", Json.arr [Json.str "i2"])]),
        ("2026-02-20", Json.obj [("ideas", Json.arr [Json.str "i3"])])]
      "" "" false ["2026-02-18"] 1 (by decide)).2.2⟩
